import Mathlib

/-!
Geometry of `Resize2` (bimg, `resize2.go`)

A shallow embedding of `resize2.go`: the dimension resolver `getDimensions`,
the fill-deficiency predicate `isImageSmallerThanFormatSize`, the sizing
helpers, the WEBP clamp `correctDimensions`, the crop-box computation of
`Resize2`, the orientation matrix of `autoOrient`, and the pipeline `Resize2`
itself over an abstract image codec, with the trace of the calls it makes.

Conventions of the embedding.

* Go `int` values are integers (`ℤ`).  The product `w * o.Height` of the crop
  fallback wraps as a 64-bit `int` (`wrapInt64`) and the `uint` conversions of
  the rectangle are taken modulo `2^64` (`toUint64`); sums and differences of
  dimensions are not wrapped, dimensions being far below `2^63`.
* `float64` arithmetic has two readings.  The definitions without suffix
  (`getSizeByFixedWidth`, `getSizeByFixedHeight`, `getOptimalCrop`,
  `correctDimensions`, `getSizeByAuto`, `getDimensions`) read it as exact
  rational arithmetic (`ℚ`); the denominators are dimensions that the theorems
  assume non-zero.  The definitions with the suffix `F64` read it as IEEE-754
  binary64: every operation is followed by `roundF64`, the rounding to 53
  significant bits with ties to even.  The two readings differ only where the
  exact value `n*H/W` lies half-way between two integers.
* `int(math.Floor(x))` is `⌊x⌋`; the bare conversion `int(x)` truncates towards
  zero (`truncToInt`).
* Integer `/` of Go truncates towards zero (`Int.tdiv`) and aborts on a zero
  divisor, which is modelled by `none`.
* A Go function returning `(value, error)` is an `Except`; a `panic` that
  nothing recovers is a separate outcome (`Outcome.panicked`).
-/

namespace Bimg

/-! ## Data model -/

/-- Modelled from the spec: the enumeration `ImageType` of output formats is
declared outside `resize2.go`; the spec lists it as "JPEG, PNG, GIF, WEBP, …".
`resize2.go` only compares a value against `WEBP` and `GIF`. -/
inductive ImageType where
  | JPEG
  | PNG
  | GIF
  | WEBP
  | OTHER (code : Nat)
  deriving DecidableEq, Repr

/-- The constant `WEBP_MAX_Pixel_Dimensions`. -/
def WEBP_MAX_Pixel_Dimensions : ℤ := 16383

/-- The fields of `Options.GaussianBlur` read by `effectImage`. -/
structure GaussianBlur where
  Sigma : ℚ := 0
  MinAmpl : ℚ := 0
  deriving DecidableEq, Repr

/-- The fields of `Options` read by `resize2.go`. -/
structure Options where
  Width : ℤ := 0
  Height : ℤ := 0
  Crop : Bool := false
  Enlarge : Bool := false
  Typ : ImageType := ImageType.JPEG
  Quality : ℤ := 0
  GaussianBlur : GaussianBlur := {}
  deriving DecidableEq, Repr

/-- What `resize2.go` observes of a `*magick.Image`: `Width()`, `Height()`,
`Format()` and the value of `Property("EXIF:Orientation")` (the empty string
when the property is absent). -/
structure Image where
  Width : ℤ
  Height : ℤ
  Format : String := ""
  Orientation : String := ""
  deriving DecidableEq, Repr

/-- The coefficients of `magick.AffineMatrix` that `autoOrient` sets
(`Sx`, `Sy` scale; `Rx`, `Ry` shear); a fresh matrix `&magick.AffineMatrix{}`
has every coefficient zero. -/
structure AffineMatrix where
  Sx : ℤ := 0
  Rx : ℤ := 0
  Ry : ℤ := 0
  Sy : ℤ := 0
  deriving DecidableEq, Repr

/-! ## Numeric conversions -/

/-- Go conversion `int(x)` of a float: the fractional part is discarded
(truncation towards zero). -/
def truncToInt (q : ℚ) : ℤ :=
  if 0 ≤ q then ⌊q⌋ else ⌈q⌉

/-! ## Shape predicates -/

/-- `isImageSquare`. -/
def isImageSquare (image : Image) : Bool :=
  image.Width == image.Height

/-- `isImagePortrait`. -/
def isImagePortrait (image : Image) : Bool :=
  decide (image.Height > image.Width)

/-- `isImageLandscape`. -/
def isImageLandscape (image : Image) : Bool :=
  decide (image.Height < image.Width)

/-- `isImageSmallerThanFormatSize`: the four-disjunct fill-deficiency test. -/
def isImageSmallerThanFormatSize (image : Image) (c : Options) : Bool :=
  let isStrictlySmaller :=
    decide (image.Width < c.Width) && decide (image.Height < c.Height)
  let isSquareAndSmaller := isImageSquare image &&
    (decide (image.Width < c.Width) || decide (image.Height < c.Height))
  let isSmallerWidth := (c.Width == 0 && decide (image.Height < c.Height)) ||
    (image.Height == c.Height && decide (image.Width < c.Width))
  let isSmallerHeight := (c.Height == 0 && decide (image.Width < c.Width)) ||
    (image.Width == c.Width && decide (image.Height < c.Height))
  isStrictlySmaller || isSquareAndSmaller || isSmallerWidth || isSmallerHeight

/-! ## Sizing helpers -/

/-- `getSizeByFixedWidth`, the float arithmetic read as exact (see
`getSizeByFixedWidthF64` for the binary64 reading). -/
def getSizeByFixedWidth (image : Image) (newWidth : ℤ) : ℤ :=
  let ratio : ℚ := (image.Height : ℚ) / (image.Width : ℚ)
  let newHeight : ℚ := (newWidth : ℚ) * ratio
  ⌊newHeight + 1 / 2⌋

/-- `getSizeByFixedHeight`, the float arithmetic read as exact (see
`getSizeByFixedHeightF64` for the binary64 reading). -/
def getSizeByFixedHeight (image : Image) (newHeight : ℤ) : ℤ :=
  let ratio : ℚ := (image.Width : ℚ) / (image.Height : ℚ)
  let newWidth : ℚ := (newHeight : ℚ) * ratio
  ⌊newWidth + 1 / 2⌋

/-- `correctDimensions`: the WEBP clamp, width first, then height. -/
def correctDimensions (image : Image) (width height : ℤ) (fileExt : ImageType) : ℤ × ℤ :=
  if fileExt ≠ ImageType.WEBP then (width, height)
  else
    let (width, height) :=
      if width > WEBP_MAX_Pixel_Dimensions then
        (WEBP_MAX_Pixel_Dimensions, getSizeByFixedWidth image WEBP_MAX_Pixel_Dimensions)
      else (width, height)
    let (width, height) :=
      if height > WEBP_MAX_Pixel_Dimensions then
        (getSizeByFixedHeight image WEBP_MAX_Pixel_Dimensions, WEBP_MAX_Pixel_Dimensions)
      else (width, height)
    (width, height)

/-- `getOptimalCrop`, the float arithmetic read as exact, for requested
dimensions that are not zero (see `getOptimalCropF64` for the binary64 reading,
which also covers a zero request). -/
def getOptimalCrop (image : Image) (newWidth newHeight : ℤ) : ℤ × ℤ :=
  let heightRatio : ℚ := (image.Height : ℚ) / (newHeight : ℚ)
  let widthRatio : ℚ := (image.Width : ℚ) / (newWidth : ℚ)
  let optimalRatio : ℚ := if heightRatio < widthRatio then heightRatio else widthRatio
  let optimalHeight : ℚ := (image.Height : ℚ) / optimalRatio
  let optimalWidth : ℚ := (image.Width : ℚ) / optimalRatio
  (truncToInt (optimalWidth + 1 / 2), truncToInt (optimalHeight + 1 / 2))

/-- `getSizeByAuto`. -/
def getSizeByAuto (image : Image) (newWidth newHeight : ℤ) : ℤ × ℤ :=
  if isImageLandscape image then (newWidth, getSizeByFixedWidth image newWidth)
  else if isImagePortrait image then (getSizeByFixedHeight image newHeight, newHeight)
  else if newHeight > newWidth then (newWidth, getSizeByFixedWidth image newWidth)
  else if newHeight < newWidth then (getSizeByFixedHeight image newHeight, newHeight)
  else (newWidth, newHeight)

/-! ## The resolver -/

/-- The local `resizeMethod` of `getDimensions`. -/
def resizeMethod (c : Options) : String :=
  if c.Crop then "crop"
  else if c.Width != 0 && c.Height == 0 then "landscape"
  else if c.Width == 0 && c.Height != 0 then "portrait"
  else "auto"

/-- `getDimensions`, over the exact sizing helpers.  The `"auto"` case returns
from inside the `switch`; the other cases fall through to the final
`correctDimensions`. -/
def getDimensions (image : Image) (c : Options) : ℤ × ℤ :=
  let w := image.Width
  let h := image.Height
  if isImageSmallerThanFormatSize image c && !c.Enlarge then
    correctDimensions image w h c.Typ
  else
    let m := resizeMethod c
    if m = "exact" then correctDimensions image c.Width c.Height c.Typ
    else if m = "portrait" then
      correctDimensions image (getSizeByFixedHeight image c.Height) c.Height c.Typ
    else if m = "landscape" then
      correctDimensions image c.Width (getSizeByFixedWidth image c.Width) c.Typ
    else if m = "auto" then getSizeByAuto image c.Width c.Height
    else if m = "crop" then
      let wh := getOptimalCrop image c.Width c.Height
      correctDimensions image wh.1 wh.2 c.Typ
    else correctDimensions image w h c.Typ

/-- The test of `scaleImage`: the codec's resize is invoked exactly when the
resolved dimensions differ from the image's. -/
def scaleImageResizes (image : Image) (o : Options) : Bool :=
  let d := getDimensions image o
  !(d.1 == image.Width && d.2 == image.Height)

/-! ## Crop box of `Resize2` -/

/-- The locals `x`, `y`, `w`, `h` of the `if o.Crop` block of `Resize2`. -/
structure CropBox where
  x : ℤ
  y : ℤ
  w : ℤ
  h : ℤ
  deriving DecidableEq, Repr

/-- Two's-complement wrap-around of a 64-bit Go `int`. -/
def wrapInt64 (x : ℤ) : ℤ :=
  (x + 2 ^ 63) % 2 ^ 64 - 2 ^ 63

/-- Go conversion `uint(x)` of an `int` on a 64-bit platform. -/
def toUint64 (x : ℤ) : ℤ :=
  x % 2 ^ 64

/-- The crop-box computation of `Resize2` on the image that reaches the crop
step.  `none` is the run-time abort of the integer division `w * o.Height /
o.Width` on a zero divisor; the product and the quotient wrap as 64-bit
integers. -/
def cropBox (image : Image) (o : Options) : Option CropBox :=
  let wh : Option (ℤ × ℤ) :=
    if isImageSmallerThanFormatSize image o then
      let w := min image.Width image.Height
      if o.Width = 0 then none
      else some (w, wrapInt64 ((wrapInt64 (w * o.Height)).tdiv o.Width))
    else some (o.Width, o.Height)
  wh.map fun p =>
    { x := (image.Width - p.1).tdiv 2, y := (image.Height - p.2).tdiv 2, w := p.1, h := p.2 }

/-- The value `magick.Rect{X, Y, Width, Height}` handed to `Crop`. -/
structure Rect where
  X : ℤ
  Y : ℤ
  Width : ℤ
  Height : ℤ
  deriving DecidableEq, Repr

/-- The rectangle literal of `Resize2`:
`magick.Rect{X: x, Y: y, Width: uint(w), Height: uint(h)}`. -/
def cropRect (b : CropBox) : Rect :=
  { X := b.x, Y := b.y, Width := toUint64 b.w, Height := toUint64 b.h }

/-! ## Orientation -/

/-- The matrix `m` that `autoOrient` builds from the orientation property
before handing it to `AffineTransform`. -/
def orientMatrix (orientation : String) : AffineMatrix :=
  let m : AffineMatrix := {}
  if orientation = "2" then { m with Sx := -1, Sy := 1 }
  else if orientation = "3" then { m with Sx := -1, Sy := -1 }
  else if orientation = "4" then { m with Sx := 1, Sy := -1 }
  else if orientation = "5" then { m with Rx := 1, Ry := 1 }
  else if orientation = "6" then { m with Rx := 1, Ry := -1 }
  else if orientation = "7" then { m with Rx := -1, Ry := -1 }
  else if orientation = "8" then { m with Rx := -1, Ry := 1 }
  else { m with Sx := 1, Sy := 1 }

/-- The matrix `autoOrient` builds for an image. -/
def autoOrientMatrix (image : Image) : AffineMatrix :=
  orientMatrix image.Orientation

/-- The identity matrix `{scaleX:1, scaleY:1, shearX:0, shearY:0}`. -/
def AffineMatrix.identity : AffineMatrix :=
  { Sx := 1, Sy := 1, Rx := 0, Ry := 0 }

/-! ## The fill-deficiency test without its square clause -/

/-- The predicate obtained from `isImageSmallerThanFormatSize` by deleting the
disjunct `isSquareAndSmaller`; the three other disjuncts are kept as written. -/
def isImageSmallerWithoutSquareClause (image : Image) (c : Options) : Bool :=
  let isStrictlySmaller :=
    decide (image.Width < c.Width) && decide (image.Height < c.Height)
  let isSmallerWidth := (c.Width == 0 && decide (image.Height < c.Height)) ||
    (image.Height == c.Height && decide (image.Width < c.Width))
  let isSmallerHeight := (c.Height == 0 && decide (image.Width < c.Width)) ||
    (image.Width == c.Width && decide (image.Height < c.Height))
  isStrictlySmaller || isSmallerWidth || isSmallerHeight

/-- The disjunct `isSquareAndSmaller` of `isImageSmallerThanFormatSize`. -/
def isSquareAndSmaller (image : Image) (c : Options) : Bool :=
  isImageSquare image &&
    (decide (image.Width < c.Width) || decide (image.Height < c.Height))

/-! ## The pipeline of `Resize2` over an abstract codec

The image library `magick` is external; its operations are parameters of the
model.  Every call made to it is recorded, in order, in a trace. -/

/-- A byte slice. -/
abbrev Bytes := List Nat

/-- The operations `resize2.go` calls, with the arguments it passes.
`ImageTypes` (the table of file extensions) and `optimizePng` belong to the
package but are declared outside `resize2.go`; they are parameters as well. -/
structure Codec where
  DecodeData : Bytes → Except String Image
  ResizeBlur : Image → ℤ → ℤ → Except String Image
  GaussianBlur : Image → ℚ → ℚ → Except String Image
  Crop : Image → Rect → Except String Image
  AffineTransform : Image → AffineMatrix → Except String Image
  Strip : Image → Bool
  Encode : Image → String → ℤ → Except String Bytes
  ImageTypes : ImageType → String
  optimizePng : Bytes → ℤ → Except String Bytes

/-- One recorded call to the codec. -/
inductive Call where
  | DecodeData
  | Dispose
  | ResizeBlur (width height : ℤ)
  | GaussianBlur (radius sigma : ℚ)
  | Crop (rect : Rect)
  | AffineTransform (m : AffineMatrix)
  | RemoveProperty
  | Strip
  | Encode (format : String) (quality : ℤ)
  | optimizePng
  deriving DecidableEq, Repr

/-- How a call of `Resize2` ends: it returns the pair `([]byte, error)`, either
component possibly `nil`, or it aborts with a run-time panic. -/
inductive Outcome where
  | returned (bytes : Option Bytes) (err : Option String)
  | panicked (msg : String)
  deriving DecidableEq, Repr

/-- Result of a helper that returns an image or panics, with its calls. -/
inductive Step where
  | done (image : Image) (trace : List Call)
  | panicked (msg : String) (trace : List Call)
  deriving DecidableEq, Repr

/-- `scaleImage`: resolve the dimensions, return the image untouched when they
equal its own, otherwise call `ResizeBlur(o.Width, o.Height, FLanczos, 1.1)` and
panic on its error. -/
def scaleImage (cd : Codec) (image : Image) (o : Options) : Step :=
  let d := getDimensions image o
  let newWidth := d.1
  let newHeight := d.2
  if newWidth == image.Width && newHeight == image.Height then Step.done image []
  else
    match cd.ResizeBlur image o.Width o.Height with
    | Except.ok image2 => Step.done image2 [Call.ResizeBlur o.Width o.Height]
    | Except.error err => Step.panicked err [Call.ResizeBlur o.Width o.Height]

/-- `effectImage`: Gaussian blur when `Sigma > 0`, panic on its error. -/
def effectImage (cd : Codec) (image : Image) (o : Options) : Step :=
  if o.GaussianBlur.Sigma > 0 then
    let radius := o.GaussianBlur.MinAmpl
    let sigma := if o.GaussianBlur.Sigma = 0 then 1 else o.GaussianBlur.Sigma
    match cd.GaussianBlur image radius sigma with
    | Except.ok image2 => Step.done image2 [Call.GaussianBlur radius sigma]
    | Except.error err => Step.panicked err [Call.GaussianBlur radius sigma]
  else Step.done image []

/-- `autoOrient`: build the matrix, call `AffineTransform`, return its error or
the transformed image with the orientation property removed. -/
def autoOrient (cd : Codec) (image : Image) : Except String Image × List Call :=
  let m := orientMatrix image.Orientation
  match cd.AffineTransform image m with
  | Except.error err => (Except.error err, [Call.AffineTransform m])
  | Except.ok image2 =>
    (Except.ok { image2 with Orientation := "" }, [Call.AffineTransform m, Call.RemoveProperty])

/-- The message of the format-mismatch error of `Resize2`. -/
def mismatchMessage (format fileExt : String) : String :=
  "image format: " ++ format ++ " mismatch with request: [" ++ fileExt ++ "]"

/-- The part of `Resize2` after `effectImage`: crop, orient, strip, encode and
the PNG optimisation.  The results of `AddDefinitions` (webp) and of `Strip` are
only printed by the source and do not influence the outcome. -/
def finishResize (cd : Codec) (image : Image) (o : Options) (fileExt : String) :
    Outcome × List Call :=
  let cropped : Option (Except String Image × List Call) :=
    if o.Crop then
      match cropBox image o with
      | none => none
      | some box =>
        match cd.Crop image (cropRect box) with
        | Except.ok image2 => some (Except.ok image2, [Call.Crop (cropRect box)])
        | Except.error err => some (Except.error err, [Call.Crop (cropRect box)])
    else some (Except.ok image, [])
  match cropped with
  | none => (Outcome.panicked "runtime error: integer divide by zero", [])
  | some (Except.error err, t1) => (Outcome.returned none (some err), t1)
  | some (Except.ok image1, t1) =>
    match autoOrient cd image1 with
    | (Except.error err, t2) => (Outcome.returned none (some err), t1 ++ t2)
    | (Except.ok image2, t2) =>
      let t3 := t1 ++ t2 ++ [Call.Strip, Call.Encode fileExt o.Quality]
      match cd.Encode image2 fileExt o.Quality with
      | Except.error err => (Outcome.returned none (some err), t3)
      | Except.ok buf =>
        if fileExt = "png" then
          match cd.optimizePng buf 8 with
          | Except.error err => (Outcome.returned none (some err), t3 ++ [Call.optimizePng])
          | Except.ok buf2 => (Outcome.returned (some buf2) none, t3 ++ [Call.optimizePng])
        else (Outcome.returned (some buf) none, t3)

/-- `Resize2`: the outcome and the trace of codec calls.  The deferred
`image.Dispose()` runs on every exit once decoding has succeeded. -/
def Resize2 (cd : Codec) (bs : Bytes) (o : Options) : Outcome × List Call :=
  match cd.DecodeData bs with
  | Except.error err => (Outcome.returned none (some err), [Call.DecodeData])
  | Except.ok image =>
    let fileExt := cd.ImageTypes o.Typ
    if image.Format = "GIF" then
      if o.Typ ≠ ImageType.GIF then
        (Outcome.returned none (some (mismatchMessage image.Format fileExt)),
          [Call.DecodeData, Call.Dispose])
      else (Outcome.returned (some bs) none, [Call.DecodeData, Call.Dispose])
    else
      let o := if image.Format = "WEBP" then { o with Quality := 100 } else o
      match scaleImage cd image o with
      | Step.panicked msg t1 => (Outcome.panicked msg, [Call.DecodeData] ++ t1 ++ [Call.Dispose])
      | Step.done image1 t1 =>
        match effectImage cd image1 o with
        | Step.panicked msg t2 =>
          (Outcome.panicked msg, [Call.DecodeData] ++ t1 ++ t2 ++ [Call.Dispose])
        | Step.done image2 t2 =>
          let r := finishResize cd image2 o fileExt
          (r.1, [Call.DecodeData] ++ t1 ++ t2 ++ r.2 ++ [Call.Dispose])

/-- A stand-in codec for concrete runs: `DecodeData` yields `source`, every
transform yields an image of the size it was asked for unless the matching
flag makes it fail, and encoding yields the bytes `[width, height]`. -/
def testCodec (source : Image) (failResize failBlur failCrop failAffine : Bool) : Codec where
  DecodeData := fun _ => Except.ok source
  ResizeBlur := fun image w h =>
    if failResize then Except.error "resize failed"
    else Except.ok { image with Width := w, Height := h }
  GaussianBlur := fun image _ _ =>
    if failBlur then Except.error "blur failed" else Except.ok image
  Crop := fun image rect =>
    if failCrop then Except.error "crop failed"
    else Except.ok { image with Width := rect.Width, Height := rect.Height }
  AffineTransform := fun image _ =>
    if failAffine then Except.error "affine failed" else Except.ok image
  Strip := fun _ => true
  Encode := fun image _ _ => Except.ok [image.Width.toNat, image.Height.toNat]
  ImageTypes := fun t =>
    match t with
    | ImageType.JPEG => "jpeg"
    | ImageType.PNG => "png"
    | ImageType.GIF => "gif"
    | ImageType.WEBP => "webp"
    | ImageType.OTHER _ => ""
  optimizePng := fun buf _ => Except.ok buf

/-! ## The binary64 reading of the float arithmetic

Go's `float64` is IEEE-754 binary64.  A finite value is a rational number; each
operation returns the exact result rounded to 53 significant bits, ties to
even.  Overflow and subnormal numbers are not modelled: every value handled
lies between `2^-1022` and `2^1023`. -/

/-- Auxiliary of `natLog2`: at most `fuel` halvings. -/
def natLog2Aux : ℕ → ℕ → ℕ
  | 0, _ => 0
  | fuel + 1, n => if n < 2 then 0 else natLog2Aux fuel (n / 2) + 1

/-- The position of the leading bit of `n` (0 for `n ≤ 1`). -/
def natLog2 (n : ℕ) : ℕ := natLog2Aux n n

/-- Rounding to the nearest integer, ties to the even one. -/
def roundTiesEven (q : ℚ) : ℤ :=
  let f := ⌊q⌋
  let r := q - (f : ℚ)
  if r < 1 / 2 then f
  else if 1 / 2 < r then f + 1
  else if f % 2 = 0 then f else f + 1

/-- The binary exponent of a positive rational `x`: the `e` with
`2^e ≤ x < 2^(e+1)`. -/
def f64Exponent (x : ℚ) : ℤ :=
  let e0 : ℤ := (natLog2 x.num.natAbs : ℤ) - (natLog2 x.den : ℤ)
  if (2 : ℚ) ^ e0 ≤ x then e0 else e0 - 1

/-- Rounding of a positive rational to the nearest binary64 number: the
nearest multiple of `2^(e-52)`, `e` being the binary exponent. -/
def roundPosF64 (x : ℚ) : ℚ :=
  let ulp : ℚ := (2 : ℚ) ^ (f64Exponent x - 52)
  (roundTiesEven (x / ulp) : ℚ) * ulp

/-- Rounding of a rational to the nearest binary64 number. -/
def roundF64 (x : ℚ) : ℚ :=
  if x = 0 then 0 else if 0 < x then roundPosF64 x else -roundPosF64 (-x)

/-- `getSizeByFixedWidth` in binary64: the conversions `float64(...)`, the
quotient, the product and the sum are each rounded. -/
def getSizeByFixedWidthF64 (image : Image) (newWidth : ℤ) : ℤ :=
  let ratio : ℚ := roundF64 (roundF64 (image.Height : ℚ) / roundF64 (image.Width : ℚ))
  let newHeight : ℚ := roundF64 (roundF64 (newWidth : ℚ) * ratio)
  ⌊roundF64 (newHeight + 1 / 2)⌋

/-- `getSizeByFixedHeight` in binary64. -/
def getSizeByFixedHeightF64 (image : Image) (newHeight : ℤ) : ℤ :=
  let ratio : ℚ := roundF64 (roundF64 (image.Width : ℚ) / roundF64 (image.Height : ℚ))
  let newWidth : ℚ := roundF64 (roundF64 (newHeight : ℚ) * ratio)
  ⌊roundF64 (newWidth + 1 / 2)⌋

/-- `correctDimensions` over the binary64 sizing helpers. -/
def correctDimensionsF64 (image : Image) (width height : ℤ) (fileExt : ImageType) : ℤ × ℤ :=
  if fileExt ≠ ImageType.WEBP then (width, height)
  else
    let (width, height) :=
      if width > WEBP_MAX_Pixel_Dimensions then
        (WEBP_MAX_Pixel_Dimensions, getSizeByFixedWidthF64 image WEBP_MAX_Pixel_Dimensions)
      else (width, height)
    let (width, height) :=
      if height > WEBP_MAX_Pixel_Dimensions then
        (getSizeByFixedHeightF64 image WEBP_MAX_Pixel_Dimensions, WEBP_MAX_Pixel_Dimensions)
      else (width, height)
    (width, height)

/-- A binary64 quotient `a / b` with `a > 0`: a finite value, or `+Inf`
(`none`) when the divisor is zero. -/
def divF64 (a b : ℚ) : Option ℚ :=
  if b = 0 then none else some (roundF64 (a / b))

/-- The comparison `<` of two such quotients, `+Inf` being the largest. -/
def ltF64 : Option ℚ → Option ℚ → Bool
  | some a, some b => decide (a < b)
  | some _, none => true
  | none, _ => false

/-- `getOptimalCrop` in binary64.  The image dimensions are positive, so a
quotient by a zero request is `+Inf`, and a dimension divided by `+Inf` is 0. -/
def getOptimalCropF64 (image : Image) (newWidth newHeight : ℤ) : ℤ × ℤ :=
  let heightRatio := divF64 (roundF64 (image.Height : ℚ)) (roundF64 (newHeight : ℚ))
  let widthRatio := divF64 (roundF64 (image.Width : ℚ)) (roundF64 (newWidth : ℚ))
  let optimalRatio := if ltF64 heightRatio widthRatio then heightRatio else widthRatio
  let optimalHeight : ℚ :=
    match optimalRatio with
    | none => 0
    | some r => roundF64 (roundF64 (image.Height : ℚ) / r)
  let optimalWidth : ℚ :=
    match optimalRatio with
    | none => 0
    | some r => roundF64 (roundF64 (image.Width : ℚ) / r)
  (truncToInt (roundF64 (optimalWidth + 1 / 2)), truncToInt (roundF64 (optimalHeight + 1 / 2)))

/-- `getSizeByAuto` over the binary64 sizing helpers. -/
def getSizeByAutoF64 (image : Image) (newWidth newHeight : ℤ) : ℤ × ℤ :=
  if isImageLandscape image then (newWidth, getSizeByFixedWidthF64 image newWidth)
  else if isImagePortrait image then (getSizeByFixedHeightF64 image newHeight, newHeight)
  else if newHeight > newWidth then (newWidth, getSizeByFixedWidthF64 image newWidth)
  else if newHeight < newWidth then (getSizeByFixedHeightF64 image newHeight, newHeight)
  else (newWidth, newHeight)

/-- `getDimensions` over the binary64 helpers. -/
def getDimensionsF64 (image : Image) (c : Options) : ℤ × ℤ :=
  let w := image.Width
  let h := image.Height
  if isImageSmallerThanFormatSize image c && !c.Enlarge then
    correctDimensionsF64 image w h c.Typ
  else
    let m := resizeMethod c
    if m = "exact" then correctDimensionsF64 image c.Width c.Height c.Typ
    else if m = "portrait" then
      correctDimensionsF64 image (getSizeByFixedHeightF64 image c.Height) c.Height c.Typ
    else if m = "landscape" then
      correctDimensionsF64 image c.Width (getSizeByFixedWidthF64 image c.Width) c.Typ
    else if m = "auto" then getSizeByAutoF64 image c.Width c.Height
    else if m = "crop" then
      let wh := getOptimalCropF64 image c.Width c.Height
      correctDimensionsF64 image wh.1 wh.2 c.Typ
    else correctDimensionsF64 image w h c.Typ

/-! ## Transposition -/

/-- The source with its two dimensions exchanged. -/
def transposeImage (image : Image) : Image :=
  { image with Width := image.Height, Height := image.Width }

/-- The options with the two requested dimensions exchanged. -/
def transposeOptions (o : Options) : Options :=
  { o with Width := o.Height, Height := o.Width }

/-! ## Auxiliary facts -/

/-- Unfolding of the fill-deficiency test into a proposition. -/
theorem isImageSmallerThanFormatSize_iff (image : Image) (c : Options) :
    isImageSmallerThanFormatSize image c = true ↔
      ((image.Width < c.Width ∧ image.Height < c.Height) ∨
       (image.Width = image.Height ∧ (image.Width < c.Width ∨ image.Height < c.Height)) ∨
       ((c.Width = 0 ∧ image.Height < c.Height) ∨
        (image.Height = c.Height ∧ image.Width < c.Width)) ∨
       ((c.Height = 0 ∧ image.Width < c.Width) ∨
        (image.Width = c.Width ∧ image.Height < c.Height))) := by
  simp [isImageSmallerThanFormatSize, isImageSquare, or_assoc]

/-- The clamp is the identity outside WEBP. -/
theorem correctDimensions_of_ne_webp (image : Image) (w h : ℤ) (t : ImageType)
    (ht : t ≠ ImageType.WEBP) : correctDimensions image w h t = (w, h) := by
  simp [correctDimensions, ht]

/-- The clamp is the identity on a pair already within the WEBP limit. -/
theorem correctDimensions_of_le (image : Image) (w h : ℤ) (t : ImageType)
    (hw : w ≤ 16383) (hh : h ≤ 16383) : correctDimensions image w h t = (w, h) := by
  unfold correctDimensions
  split
  · rfl
  · simp [WEBP_MAX_Pixel_Dimensions, not_lt.mpr hw, not_lt.mpr hh]

/-- The resolver in its short-circuit: a fill-deficient source without enlarge. -/
theorem getDimensions_short_circuit (image : Image) (c : Options)
    (hs : (isImageSmallerThanFormatSize image c && !c.Enlarge) = true) :
    getDimensions image c = correctDimensions image image.Width image.Height c.Typ := by
  simp only [getDimensions, hs, if_true]

/-- The resolver in crop mode. -/
theorem getDimensions_crop (image : Image) (c : Options)
    (hs : (isImageSmallerThanFormatSize image c && !c.Enlarge) = false)
    (hc : c.Crop = true) :
    getDimensions image c =
      correctDimensions image (getOptimalCrop image c.Width c.Height).1
        (getOptimalCrop image c.Width c.Height).2 c.Typ := by
  have hm : resizeMethod c = "crop" := by simp [resizeMethod, hc]
  simp [getDimensions, hs, hm]

/-- The resolver in landscape mode. -/
theorem getDimensions_landscape (image : Image) (c : Options)
    (hs : (isImageSmallerThanFormatSize image c && !c.Enlarge) = false)
    (hc : c.Crop = false) (hw : c.Width ≠ 0) (hh : c.Height = 0) :
    getDimensions image c =
      correctDimensions image c.Width (getSizeByFixedWidth image c.Width) c.Typ := by
  have hm : resizeMethod c = "landscape" := by simp [resizeMethod, hc, hw, hh]
  simp [getDimensions, hs, hm]

/-- The resolver in portrait mode. -/
theorem getDimensions_portrait (image : Image) (c : Options)
    (hs : (isImageSmallerThanFormatSize image c && !c.Enlarge) = false)
    (hc : c.Crop = false) (hw : c.Width = 0) (hh : c.Height ≠ 0) :
    getDimensions image c =
      correctDimensions image (getSizeByFixedHeight image c.Height) c.Height c.Typ := by
  have hm : resizeMethod c = "portrait" := by simp [resizeMethod, hc, hw, hh]
  simp [getDimensions, hs, hm]

/-- The resolver in auto mode: the result of `getSizeByAuto`, returned as is. -/
theorem getDimensions_auto (image : Image) (c : Options)
    (hs : (isImageSmallerThanFormatSize image c && !c.Enlarge) = false)
    (hc : c.Crop = false)
    (hwh : (c.Width ≠ 0 ∧ c.Height ≠ 0) ∨ (c.Width = 0 ∧ c.Height = 0)) :
    getDimensions image c = getSizeByAuto image c.Width c.Height := by
  have hm : resizeMethod c = "auto" := by
    rcases hwh with ⟨h1, h2⟩ | ⟨h1, h2⟩ <;> simp [resizeMethod, hc, h1, h2]
  simp [getDimensions, hs, hm]

/-! ## C1: crop containment -/

/-- C1, the code at the failing input: a 100x100 JPEG with the crop request
50x200 and enlarge false.  The source is fill-deficient (square and lower than
the request), so `getDimensions` keeps (100, 100) and no resize takes place; at
the crop step the box is the fallback `w = min(100, 100) = 100`,
`h = 100 * 200 / 50 = 400`, placed at `x = 0`, `y = (100 - 400) / 2 = -150`,
and `Resize2` hands `Rect{X: 0, Y: -150, Width: 100, Height: 400}` to `Crop`:
the rectangle leaves the image, `0 ≤ y` and `y + h ≤ H` both fail. -/
theorem cropBox_fallback_outside_image :
    isImageSmallerThanFormatSize { Width := 100, Height := 100, Format := "JPEG" }
        { Width := 50, Height := 200, Crop := true } = true ∧
    scaleImageResizes { Width := 100, Height := 100, Format := "JPEG" }
        { Width := 50, Height := 200, Crop := true } = false ∧
    cropBox { Width := 100, Height := 100, Format := "JPEG" }
        { Width := 50, Height := 200, Crop := true }
      = some { x := 0, y := -150, w := 100, h := 400 } ∧
    ¬ (∀ b : CropBox,
        cropBox { Width := 100, Height := 100, Format := "JPEG" }
            { Width := 50, Height := 200, Crop := true } = some b →
        0 ≤ b.x ∧ b.x + b.w ≤ 100 ∧ 0 ≤ b.y ∧ b.y + b.h ≤ 100) ∧
    (Resize2 (testCodec { Width := 100, Height := 100, Format := "JPEG" } false false false false)
        [1] { Width := 50, Height := 200, Crop := true }).2
      = [Call.DecodeData, Call.Crop { X := 0, Y := -150, Width := 100, Height := 400 },
          Call.AffineTransform { Sx := 1, Sy := 1 }, Call.RemoveProperty, Call.Strip,
          Call.Encode "jpeg" 0, Call.Dispose] := by
  refine ⟨by decide, by decide, by decide, fun h => ?_, by decide⟩
  have h2 := (h { x := 0, y := -150, w := 100, h := 400 } (by decide)).2.2.1
  exact absurd h2 (by decide)

/-! ## C2, C3: the WEBP clamp -/

/-- C2, counterexample: for a 200x100 source and the proposed
pair (100, 20000) with output format WEBP, the width test passes (100 ≤ 16383),
the height test clamps the height to 16383 and recomputes the width from the
source ratio as `floor(16383 * 200 / 100 + 1/2) = 32766`, which is above the
limit 16383 and is returned without a further check. -/
theorem correctDimensions_webp_width_exceeds :
    correctDimensions { Width := 200, Height := 100 } 100 20000 ImageType.WEBP = (32766, 16383) ∧
    ¬ ((32766 : ℤ) ≤ WEBP_MAX_Pixel_Dimensions) := by
  decide!

/-- C3, counterexample: for a 200x100 source, the clamp of
(100, 20000) under WEBP is (32766, 16383), and clamping that pair again gives
(16383, 8192): the second application changes the result. -/
theorem correctDimensions_webp_not_idempotent :
    correctDimensions { Width := 200, Height := 100 } 100 20000 ImageType.WEBP = (32766, 16383) ∧
    correctDimensions { Width := 200, Height := 100 } 32766 16383 ImageType.WEBP = (16383, 8192) ∧
    correctDimensions { Width := 200, Height := 100 }
        (correctDimensions { Width := 200, Height := 100 } 100 20000 ImageType.WEBP).1
        (correctDimensions { Width := 200, Height := 100 } 100 20000 ImageType.WEBP).2
        ImageType.WEBP
      ≠ correctDimensions { Width := 200, Height := 100 } 100 20000 ImageType.WEBP := by
  decide!

/-! ## C4: a request equal to the source size -/

/-- A request equal to the source size is never fill-deficient. -/
theorem not_smaller_of_same_size (image : Image) (o : Options)
    (hW : 1 ≤ image.Width) (hH : 1 ≤ image.Height)
    (hw : o.Width = image.Width) (hh : o.Height = image.Height) :
    isImageSmallerThanFormatSize image o = false := by
  rw [← Bool.not_eq_true, isImageSmallerThanFormatSize_iff]
  omega

/-- The optimal crop of a request equal to the source size is the source size. -/
theorem getOptimalCrop_same_size (image : Image)
    (hW : 1 ≤ image.Width) (hH : 1 ≤ image.Height) :
    getOptimalCrop image image.Width image.Height = (image.Width, image.Height) := by
  have hWq : (0 : ℚ) < (image.Width : ℚ) := by exact_mod_cast hW
  have hHq : (0 : ℚ) < (image.Height : ℚ) := by exact_mod_cast hH
  have floorW : ⌊(image.Width : ℚ) + 1 / 2⌋ = image.Width := by
    rw [Int.floor_eq_iff]
    constructor <;> linarith
  have floorH : ⌊(image.Height : ℚ) + 1 / 2⌋ = image.Height := by
    rw [Int.floor_eq_iff]
    constructor <;> linarith
  have posW : (0 : ℚ) ≤ (image.Width : ℚ) + 1 / 2 := by linarith
  have posH : (0 : ℚ) ≤ (image.Height : ℚ) + 1 / 2 := by linarith
  simp only [getOptimalCrop, truncToInt, div_self (ne_of_gt hWq), div_self (ne_of_gt hHq),
    lt_irrefl, if_false, div_one, posW, posH, if_true, floorW, floorH]

/-- Scaling a dimension by the ratio of the source to itself returns the other
source dimension: `getSizeByFixedWidth(image, W) = H`. -/
theorem getSizeByFixedWidth_self (image : Image) (hW : 1 ≤ image.Width) :
    getSizeByFixedWidth image image.Width = image.Height := by
  have hWq : (image.Width : ℚ) ≠ 0 := by
    have : (0 : ℚ) < (image.Width : ℚ) := by exact_mod_cast hW
    exact ne_of_gt this
  unfold getSizeByFixedWidth
  simp only
  rw [mul_div_cancel₀ _ hWq, Int.floor_eq_iff]
  constructor <;> linarith

/-- Likewise `getSizeByFixedHeight(image, H) = W`. -/
theorem getSizeByFixedHeight_self (image : Image) (hH : 1 ≤ image.Height) :
    getSizeByFixedHeight image image.Height = image.Width := by
  have hHq : (image.Height : ℚ) ≠ 0 := by
    have : (0 : ℚ) < (image.Height : ℚ) := by exact_mod_cast hH
    exact ne_of_gt this
  unfold getSizeByFixedHeight
  simp only
  rw [mul_div_cancel₀ _ hHq, Int.floor_eq_iff]
  constructor <;> linarith

/-- C4, counterexample: a 20000x20000 source with the request 20000x20000,
crop mode and output format WEBP.  The source is not fill-deficient, the optimal
crop is (20000, 20000), and the final clamp lowers it to (16383, 16383): the
resolver does not return the source size and `scaleImage` does call the resize. -/
theorem getDimensions_same_size_counterexample :
    getDimensions { Width := 20000, Height := 20000 }
        { Width := 20000, Height := 20000, Crop := true, Typ := ImageType.WEBP }
      = (16383, 16383) ∧
    getDimensions { Width := 20000, Height := 20000 }
        { Width := 20000, Height := 20000, Crop := true, Typ := ImageType.WEBP }
      ≠ (20000, 20000) ∧
    scaleImageResizes { Width := 20000, Height := 20000 }
        { Width := 20000, Height := 20000, Crop := true, Typ := ImageType.WEBP } = true := by
  decide!

/-- C4, amended: for a source of dimensions `W, H ≥ 1` and options whose
requested width is `W` and requested height is `H` (any crop flag, any enlarge
flag), if the output format is not WEBP or `W` and `H` are both at most 16383,
then `getDimensions` returns exactly `(W, H)` and `scaleImage` skips the resize
call. -/
theorem getDimensions_same_size (image : Image) (o : Options)
    (hW : 1 ≤ image.Width) (hH : 1 ≤ image.Height)
    (hw : o.Width = image.Width) (hh : o.Height = image.Height)
    (hf : o.Typ ≠ ImageType.WEBP ∨ (image.Width ≤ 16383 ∧ image.Height ≤ 16383)) :
    getDimensions image o = (image.Width, image.Height) ∧
    scaleImageResizes image o = false := by
  have hcd : correctDimensions image image.Width image.Height o.Typ
      = (image.Width, image.Height) := by
    rcases hf with hf | ⟨h1, h2⟩
    · exact correctDimensions_of_ne_webp _ _ _ _ hf
    · exact correctDimensions_of_le _ _ _ _ h1 h2
  have hns := not_smaller_of_same_size image o hW hH hw hh
  have hw0 : image.Width ≠ 0 := by omega
  have hh0 : image.Height ≠ 0 := by omega
  have main : getDimensions image o = (image.Width, image.Height) := by
    by_cases hc : o.Crop = true
    · rw [getDimensions_crop image o (by simp [hns]) hc, hw, hh,
        getOptimalCrop_same_size image hW hH]
      exact hcd
    · have hc2 : o.Crop = false := by simpa using hc
      rw [getDimensions_auto image o (by simp [hns]) hc2
        (Or.inl ⟨by omega, by omega⟩), hw, hh]
      simp only [getSizeByAuto, isImageLandscape, isImagePortrait,
        getSizeByFixedWidth_self image hW, getSizeByFixedHeight_self image hH]
      split_ifs <;> rfl
  refine ⟨main, ?_⟩
  simp [scaleImageResizes, main]

/-- C4, amended, at a concrete input: an 800x600 source asked for 800x600 in
crop mode with output format WEBP. -/
theorem getDimensions_same_size_witness :
    getDimensions { Width := 800, Height := 600 }
        { Width := 800, Height := 600, Crop := true, Typ := ImageType.WEBP } = (800, 600) ∧
    scaleImageResizes { Width := 800, Height := 600 }
        { Width := 800, Height := 600, Crop := true, Typ := ImageType.WEBP } = false :=
  getDimensions_same_size { Width := 800, Height := 600 }
    { Width := 800, Height := 600, Crop := true, Typ := ImageType.WEBP }
    (by decide) (by decide) rfl rfl (Or.inr ⟨by decide, by decide⟩)

/-! ## C5: the clamp in auto mode -/

/-- C5, the code at the failing input: a 100x100 source, output format WEBP,
enlarge allowed, request 20000x20000 without crop.  The mode is "auto"; the
square-to-square branch of `getSizeByAuto` yields (20000, 20000), which
`getDimensions` returns from inside the `switch`, whereas the clamp applied to
that pair is (16383, 16383). -/
theorem getDimensions_auto_not_clamped :
    resizeMethod { Width := 20000, Height := 20000, Enlarge := true, Typ := ImageType.WEBP }
      = "auto" ∧
    getDimensions { Width := 100, Height := 100 }
        { Width := 20000, Height := 20000, Enlarge := true, Typ := ImageType.WEBP }
      = (20000, 20000) ∧
    correctDimensions { Width := 100, Height := 100 }
        (getSizeByAuto { Width := 100, Height := 100 } 20000 20000).1
        (getSizeByAuto { Width := 100, Height := 100 } 20000 20000).2 ImageType.WEBP
      = (16383, 16383) := by
  decide!

/-! ## C6: the no-enlarge short-circuit -/

/-- C6: for a source of dimensions `W, H ≥ 1` that is fill-deficient for the
options, with enlarge false, `getDimensions` returns
`correctDimensions(source, W, H, format)` whatever the crop flag and the
requested size; hence it returns exactly `(W, H)` when the format is not WEBP or
when `W` and `H` are both at most 16383. -/
theorem getDimensions_no_enlarge (image : Image) (o : Options)
    (hW : 1 ≤ image.Width) (hH : 1 ≤ image.Height)
    (hs : isImageSmallerThanFormatSize image o = true) (he : o.Enlarge = false) :
    getDimensions image o = correctDimensions image image.Width image.Height o.Typ ∧
    (o.Typ ≠ ImageType.WEBP ∨ (image.Width ≤ 16383 ∧ image.Height ≤ 16383) →
      getDimensions image o = (image.Width, image.Height)) := by
  have main := getDimensions_short_circuit image o (by simp [hs, he])
  refine ⟨main, ?_⟩
  rintro (hf | ⟨h1, h2⟩)
  · rw [main]
    exact correctDimensions_of_ne_webp _ _ _ _ hf
  · rw [main]
    exact correctDimensions_of_le _ _ _ _ h1 h2

/-- C6 at the scenario of the specification: source 100x100, request 500x500,
enlarge false: the resolver answers 100x100. -/
theorem getDimensions_no_enlarge_witness :
    getDimensions { Width := 100, Height := 100 } { Width := 500, Height := 500 } = (100, 100) :=
  (getDimensions_no_enlarge { Width := 100, Height := 100 } { Width := 500, Height := 500 }
    (by decide) (by decide) (by decide) rfl).2 (Or.inl (by decide))

/-! ## C8: auto mode on a square source -/

/-- C8: for a square source `S x S` with `S ≥ 1` and options with crop false,
requested width `w ≥ 1` and height `h ≥ 1`, not short-circuited (enlarge true,
or the source not fill-deficient), `getDimensions` returns `(m, m)` with
`m = min(w, h)`. -/
theorem getDimensions_auto_square (image : Image) (o : Options)
    (hS : 1 ≤ image.Width) (hsq : image.Height = image.Width)
    (hc : o.Crop = false) (hw : 1 ≤ o.Width) (hh : 1 ≤ o.Height)
    (he : o.Enlarge = true ∨ isImageSmallerThanFormatSize image o = false) :
    getDimensions image o = (min o.Width o.Height, min o.Width o.Height) := by
  have hns : (isImageSmallerThanFormatSize image o && !o.Enlarge) = false := by
    rcases he with he | he <;> simp [he]
  rw [getDimensions_auto image o hns hc (Or.inl ⟨by omega, by omega⟩)]
  have hSq : (image.Width : ℚ) ≠ 0 := by
    have : (0 : ℚ) < (image.Width : ℚ) := by exact_mod_cast hS
    exact ne_of_gt this
  have fl : ∀ n : ℤ, ⌊(n : ℚ) + 1 / 2⌋ = n := by
    intro n
    rw [Int.floor_eq_iff]
    constructor <;> linarith
  have fw : getSizeByFixedWidth image o.Width = o.Width := by
    simp only [getSizeByFixedWidth, hsq, div_self hSq, mul_one, fl]
  have fh : getSizeByFixedHeight image o.Height = o.Height := by
    simp only [getSizeByFixedHeight, hsq, div_self hSq, mul_one, fl]
  simp only [getSizeByAuto, isImageLandscape, isImagePortrait, hsq, lt_irrefl, gt_iff_lt,
    decide_False, Bool.false_eq_true, if_false, fw, fh]
  split_ifs with h1 h2
  · rw [min_eq_left (le_of_lt h1)]
  · rw [min_eq_right (le_of_lt h2)]
  · have : o.Width = o.Height := by omega
    rw [this, min_self]

/-- C8 at the scenario of the specification: source 200x200, request 100x50,
enlarge true, resolves to 50x50. -/
theorem getDimensions_auto_square_witness :
    getDimensions { Width := 200, Height := 200 } { Width := 100, Height := 50, Enlarge := true }
      = (min 100 50, min 100 50) ∧ min (100 : ℤ) 50 = 50 :=
  ⟨getDimensions_auto_square { Width := 200, Height := 200 }
      { Width := 100, Height := 50, Enlarge := true }
      (by decide) rfl rfl (by decide) (by decide) (Or.inl rfl), by decide⟩

/-! ## C9: the optimal crop covers the requested box -/

/-- On a non-negative value the conversion `int(x)` is the floor. -/
theorem truncToInt_of_nonneg (q : ℚ) (hq : 0 ≤ q) : truncToInt q = ⌊q⌋ := by
  simp [truncToInt, hq]

/-- Rounding half-up an integer returns it. -/
theorem floor_int_add_half (n : ℤ) : ⌊(n : ℚ) + 1 / 2⌋ = n := by
  rw [Int.floor_eq_iff]
  constructor <;> linarith

/-- C9: for a source of dimensions `W, H ≥ 1` and a requested width `w ≥ 1`
and height `h ≥ 1`, `getOptimalCrop` returns `(ow, oh)` with `ow ≥ w`,
`oh ≥ h`, and `ow = w` or `oh = h`: the axis with the smaller source/target
ratio is matched exactly (height when `H/h < W/w`, width otherwise). -/
theorem getOptimalCrop_covers (image : Image) (w h : ℤ)
    (hW : 1 ≤ image.Width) (hH : 1 ≤ image.Height) (hw : 1 ≤ w) (hh : 1 ≤ h) :
    w ≤ (getOptimalCrop image w h).1 ∧ h ≤ (getOptimalCrop image w h).2 ∧
    ((getOptimalCrop image w h).1 = w ∨ (getOptimalCrop image w h).2 = h) ∧
    ((image.Height : ℚ) / (h : ℚ) < (image.Width : ℚ) / (w : ℚ) →
      (getOptimalCrop image w h).2 = h) ∧
    (¬ (image.Height : ℚ) / (h : ℚ) < (image.Width : ℚ) / (w : ℚ) →
      (getOptimalCrop image w h).1 = w) := by
  have hWq : (0 : ℚ) < (image.Width : ℚ) := by exact_mod_cast hW
  have hHq : (0 : ℚ) < (image.Height : ℚ) := by exact_mod_cast hH
  have hwq : (0 : ℚ) < (w : ℚ) := by exact_mod_cast hw
  have hhq : (0 : ℚ) < (h : ℚ) := by exact_mod_cast hh
  by_cases hr : (image.Height : ℚ) / (h : ℚ) < (image.Width : ℚ) / (w : ℚ)
  · -- the height ratio is the optimal one
    have e1 : (image.Height : ℚ) / ((image.Height : ℚ) / (h : ℚ)) = (h : ℚ) := by
      field_simp
    have e2 : (image.Width : ℚ) / ((image.Height : ℚ) / (h : ℚ))
        = (image.Width : ℚ) * (h : ℚ) / (image.Height : ℚ) := by
      field_simp
    have hcross : (image.Height : ℚ) * (w : ℚ) < (image.Width : ℚ) * (h : ℚ) :=
      (div_lt_div_iff₀ hhq hwq).mp hr
    have hlow : (w : ℚ) < (image.Width : ℚ) * (h : ℚ) / (image.Height : ℚ) := by
      rw [lt_div_iff₀ hHq]
      linarith
    have hpos : (0 : ℚ) ≤ (image.Width : ℚ) * (h : ℚ) / (image.Height : ℚ) + 1 / 2 := by
      linarith
    have hposh : (0 : ℚ) ≤ (h : ℚ) + 1 / 2 := by linarith
    have o1 : (getOptimalCrop image w h).1
        = ⌊(image.Width : ℚ) * (h : ℚ) / (image.Height : ℚ) + 1 / 2⌋ := by
      simp only [getOptimalCrop, hr, if_true, e2, truncToInt_of_nonneg _ hpos]
    have o2 : (getOptimalCrop image w h).2 = h := by
      simp only [getOptimalCrop, hr, if_true, e1, truncToInt_of_nonneg _ hposh,
        floor_int_add_half]
    refine ⟨?_, ?_, Or.inr o2, fun _ => o2, fun hn => absurd hr hn⟩
    · rw [o1, Int.le_floor]
      linarith
    · rw [o2]
  · -- the width ratio is the optimal one
    have e1 : (image.Width : ℚ) / ((image.Width : ℚ) / (w : ℚ)) = (w : ℚ) := by
      field_simp
    have e2 : (image.Height : ℚ) / ((image.Width : ℚ) / (w : ℚ))
        = (image.Height : ℚ) * (w : ℚ) / (image.Width : ℚ) := by
      field_simp
    have hcross : (image.Width : ℚ) * (h : ℚ) ≤ (image.Height : ℚ) * (w : ℚ) := by
      have := not_lt.mp hr
      exact (div_le_div_iff₀ hwq hhq).mp this
    have hlow : (h : ℚ) ≤ (image.Height : ℚ) * (w : ℚ) / (image.Width : ℚ) := by
      rw [le_div_iff₀ hWq]
      linarith
    have hpos : (0 : ℚ) ≤ (image.Height : ℚ) * (w : ℚ) / (image.Width : ℚ) + 1 / 2 := by
      linarith
    have hposw : (0 : ℚ) ≤ (w : ℚ) + 1 / 2 := by linarith
    have o1 : (getOptimalCrop image w h).1 = w := by
      simp only [getOptimalCrop, hr, if_false, e1, truncToInt_of_nonneg _ hposw,
        floor_int_add_half]
    have o2 : (getOptimalCrop image w h).2
        = ⌊(image.Height : ℚ) * (w : ℚ) / (image.Width : ℚ) + 1 / 2⌋ := by
      simp only [getOptimalCrop, hr, if_false, e2, truncToInt_of_nonneg _ hpos]
    refine ⟨?_, ?_, Or.inl o1, fun hy => absurd hy hr, fun _ => o1⟩
    · rw [o1]
    · rw [o2, Int.le_floor]
      linarith

/-- C9 at a concrete input: a 100x50 source and the box 80x60 give the
pre-crop size 120x60, the height being matched exactly. -/
theorem getOptimalCrop_covers_witness :
    getOptimalCrop { Width := 100, Height := 50 } 80 60 = (120, 60) ∧
    ((80 : ℤ) ≤ (getOptimalCrop { Width := 100, Height := 50 } 80 60).1 ∧
     (60 : ℤ) ≤ (getOptimalCrop { Width := 100, Height := 50 } 80 60).2 ∧
     ((getOptimalCrop { Width := 100, Height := 50 } 80 60).1 = 80 ∨
      (getOptimalCrop { Width := 100, Height := 50 } 80 60).2 = 60) ∧
     ((((50 : ℤ) : ℚ)) / ((60 : ℤ) : ℚ) < ((100 : ℤ) : ℚ) / ((80 : ℤ) : ℚ) →
       (getOptimalCrop { Width := 100, Height := 50 } 80 60).2 = 60) ∧
     (¬ (((50 : ℤ) : ℚ)) / ((60 : ℤ) : ℚ) < ((100 : ℤ) : ℚ) / ((80 : ℤ) : ℚ) →
       (getOptimalCrop { Width := 100, Height := 50 } 80 60).1 = 80)) :=
  ⟨by decide!, getOptimalCrop_covers { Width := 100, Height := 50 } 80 60
    (by decide) (by decide) (by decide) (by decide)⟩

/-! ## C10: the default of the orientation matrix -/

/-- C10: `orientMatrix` is a total function of the orientation property, and
for every value other than "2" .. "8" (the absent value "", "1", and any other
string) the matrix is the identity `{scaleX:1, scaleY:1, shearX:0, shearY:0}`. -/
theorem orientMatrix_default (orientation : String)
    (h : orientation ∉ ["2", "3", "4", "5", "6", "7", "8"]) :
    orientMatrix orientation = AffineMatrix.identity ∧
    (orientMatrix orientation).Sx = 1 ∧ (orientMatrix orientation).Sy = 1 ∧
    (orientMatrix orientation).Rx = 0 ∧ (orientMatrix orientation).Ry = 0 := by
  simp only [List.mem_cons, List.mem_singleton, List.not_mem_nil, or_false, not_or] at h
  obtain ⟨h2, h3, h4, h5, h6, h7, h8⟩ := h
  have e : orientMatrix orientation = AffineMatrix.identity := by
    simp [orientMatrix, AffineMatrix.identity, h2, h3, h4, h5, h6, h7, h8]
  rw [e]
  exact ⟨rfl, rfl, rfl, rfl, rfl⟩

/-- C10 at concrete inputs: the absent property, "1" and an unknown tag. -/
theorem orientMatrix_default_witness :
    orientMatrix "" = AffineMatrix.identity ∧
    orientMatrix "1" = AffineMatrix.identity ∧
    orientMatrix "9" = AffineMatrix.identity :=
  ⟨(orientMatrix_default "" (by decide)).1, (orientMatrix_default "1" (by decide)).1,
    (orientMatrix_default "9" (by decide)).1⟩

/-! ## C11: the orientation table -/

/-- C11: for each tag "2" .. "8" the matrix `autoOrient` builds is the table
row, as (scaleX, scaleY, shearX, shearY) = (`Sx`, `Sy`, `Rx`, `Ry`):
"2" -> (-1,1,0,0), "3" -> (-1,-1,0,0), "4" -> (1,-1,0,0), "5" -> (0,0,1,1),
"6" -> (0,0,1,-1), "7" -> (0,0,-1,-1), "8" -> (0,0,-1,1); the coefficients a
branch does not set stay 0. -/
theorem orientMatrix_table :
    orientMatrix "2" = { Sx := -1, Sy := 1, Rx := 0, Ry := 0 } ∧
    orientMatrix "3" = { Sx := -1, Sy := -1, Rx := 0, Ry := 0 } ∧
    orientMatrix "4" = { Sx := 1, Sy := -1, Rx := 0, Ry := 0 } ∧
    orientMatrix "5" = { Sx := 0, Sy := 0, Rx := 1, Ry := 1 } ∧
    orientMatrix "6" = { Sx := 0, Sy := 0, Rx := 1, Ry := -1 } ∧
    orientMatrix "7" = { Sx := 0, Sy := 0, Rx := -1, Ry := -1 } ∧
    orientMatrix "8" = { Sx := 0, Sy := 0, Rx := -1, Ry := 1 } := by
  decide

/-! ## Round-half-up sizing in exact arithmetic -/

/-- Rounding half-up a fraction with a positive denominator, in integer
arithmetic: `floor(a/b + 1/2) = (2a + b) div (2b)`. -/
theorem floor_div_add_half (a b : ℤ) (hb : 0 < b) :
    ⌊(a : ℚ) / (b : ℚ) + 1 / 2⌋ = (2 * a + b) / (2 * b) := by
  have hbq : (0 : ℚ) < (b : ℚ) := by exact_mod_cast hb
  have h2b : (0 : ℚ) < ((2 * b : ℤ) : ℚ) := by push_cast; linarith
  have e : (a : ℚ) / (b : ℚ) + 1 / 2 = ((2 * a + b : ℤ) : ℚ) / ((2 * b : ℤ) : ℚ) := by
    push_cast
    field_simp
    ring
  rw [e, Int.floor_eq_iff]
  have hdiv := Int.ediv_add_emod (2 * a + b) (2 * b)
  have hnn := Int.emod_nonneg (2 * a + b) (show (2 * b) ≠ 0 by omega)
  have hlt := Int.emod_lt_of_pos (2 * a + b) (show 0 < 2 * b by omega)
  have hdivq : (((2 * a + b : ℤ)) : ℚ)
      = ((2 * b : ℤ) : ℚ) * (((2 * a + b) / (2 * b) : ℤ) : ℚ)
        + (((2 * a + b) % (2 * b) : ℤ) : ℚ) := by
    exact_mod_cast hdiv.symm
  have hnnq : (0 : ℚ) ≤ (((2 * a + b) % (2 * b) : ℤ) : ℚ) := by exact_mod_cast hnn
  have hltq : (((2 * a + b) % (2 * b) : ℤ) : ℚ) < ((2 * b : ℤ) : ℚ) := by exact_mod_cast hlt
  constructor
  · rw [le_div_iff₀ h2b]
    nlinarith
  · rw [div_lt_iff₀ h2b]
    nlinarith

/-- `getSizeByFixedWidth` in integer arithmetic. -/
theorem getSizeByFixedWidth_eq_ediv (image : Image) (n : ℤ) (hW : 1 ≤ image.Width) :
    getSizeByFixedWidth image n = (2 * (n * image.Height) + image.Width) / (2 * image.Width) := by
  rw [← floor_div_add_half _ _ (by omega)]
  simp only [getSizeByFixedWidth]
  push_cast
  rw [mul_div_assoc]

/-- `getSizeByFixedHeight` in integer arithmetic. -/
theorem getSizeByFixedHeight_eq_ediv (image : Image) (n : ℤ) (hH : 1 ≤ image.Height) :
    getSizeByFixedHeight image n
      = (2 * (n * image.Width) + image.Height) / (2 * image.Height) := by
  rw [← floor_div_add_half _ _ (by omega)]
  simp only [getSizeByFixedHeight]
  push_cast
  rw [mul_div_assoc]

/-! ## C13: the GIF format check -/

/-- C13: when the input decodes to an image whose format is "GIF", `Resize2`
returns the format-mismatch error and no bytes if the requested output type is
not GIF, and the input byte slice unchanged with no error if it is GIF; in both
cases the only codec calls are the decoding and the deferred `Dispose`: no
resize, blur, crop, affine transform or encoding takes place. -/
theorem Resize2_gif (cd : Codec) (bs : Bytes) (o : Options) (image : Image)
    (hd : cd.DecodeData bs = Except.ok image) (hf : image.Format = "GIF") :
    (o.Typ ≠ ImageType.GIF →
      Resize2 cd bs o =
        (Outcome.returned none (some (mismatchMessage "GIF" (cd.ImageTypes o.Typ))),
          [Call.DecodeData, Call.Dispose])) ∧
    (o.Typ = ImageType.GIF →
      Resize2 cd bs o = (Outcome.returned (some bs) none, [Call.DecodeData, Call.Dispose])) := by
  constructor
  · intro ht
    simp [Resize2, hd, hf, ht]
  · intro ht
    simp [Resize2, hd, hf, ht]

/-- C13 at concrete inputs: a 800x600 GIF asked for as JPEG (mismatch error) and
as GIF (bytes passed through). -/
theorem Resize2_gif_witness :
    Resize2 (testCodec { Width := 800, Height := 600, Format := "GIF" } false false false false)
        [71, 73, 70] { Width := 400, Height := 300 }
      = (Outcome.returned none (some "image format: GIF mismatch with request: [jpeg]"),
          [Call.DecodeData, Call.Dispose]) ∧
    Resize2 (testCodec { Width := 800, Height := 600, Format := "GIF" } false false false false)
        [71, 73, 70] { Width := 400, Height := 300, Typ := ImageType.GIF }
      = (Outcome.returned (some [71, 73, 70]) none, [Call.DecodeData, Call.Dispose]) :=
  ⟨(Resize2_gif (testCodec { Width := 800, Height := 600, Format := "GIF" } false false false false)
      [71, 73, 70] { Width := 400, Height := 300 } { Width := 800, Height := 600, Format := "GIF" }
      rfl rfl).1 (by decide),
   (Resize2_gif (testCodec { Width := 800, Height := 600, Format := "GIF" } false false false false)
      [71, 73, 70] { Width := 400, Height := 300, Typ := ImageType.GIF }
      { Width := 800, Height := 600, Format := "GIF" } rfl rfl).2 rfl⟩

/-! ## C14: failures of the transforms -/

/-- C14, the code at the failing inputs: a 800x600 JPEG asked for at 400x300.
When the codec's resize fails, `scaleImage` panics and `Resize2` ends in that
panic instead of returning an error; likewise when the Gaussian blur fails
(`Sigma = 2`) in `effectImage`.  The failures of crop and of the affine
transform, in contrast, are returned as `(nil, err)`. -/
theorem Resize2_transform_failure_panics :
    (Resize2 (testCodec { Width := 800, Height := 600, Format := "JPEG" } true false false false)
        [1] { Width := 400, Height := 300 }).1 = Outcome.panicked "resize failed" ∧
    (Resize2 (testCodec { Width := 800, Height := 600, Format := "JPEG" } false true false false)
        [1] { Width := 400, Height := 300, GaussianBlur := { Sigma := 2 } }).1
      = Outcome.panicked "blur failed" ∧
    (Resize2 (testCodec { Width := 800, Height := 600, Format := "JPEG" } false false true false)
        [1] { Width := 400, Height := 300, Crop := true }).1
      = Outcome.returned none (some "crop failed") ∧
    (Resize2 (testCodec { Width := 800, Height := 600, Format := "JPEG" } false false false true)
        [1] { Width := 400, Height := 300 }).1
      = Outcome.returned none (some "affine failed") := by
  decide!

/-! ## C15: the size asked of the resize -/

/-- C15, the code at the failing input: for a 800x600 source and the options
width 400, height 0 (no crop), `getDimensions` answers (400, 300), and since that
differs from the source size `scaleImage` calls the resize, but with the
requested pair `(o.Width, o.Height) = (400, 0)`, not with (400, 300). -/
theorem scaleImage_resize_arguments :
    getDimensions { Width := 800, Height := 600, Format := "JPEG" } { Width := 400 }
      = (400, 300) ∧
    scaleImage (testCodec { Width := 800, Height := 600, Format := "JPEG" } false false false false)
        { Width := 800, Height := 600, Format := "JPEG" } { Width := 400 }
      = Step.done { Width := 400, Height := 0, Format := "JPEG" } [Call.ResizeBlur 400 0] := by
  decide!

/-! ## C16: enlarge false and upscaling -/

/-- Scaling a width not above the source width gives a height not above the
source height. -/
theorem getSizeByFixedWidth_le (image : Image) (n : ℤ)
    (hW : 1 ≤ image.Width) (hH : 0 ≤ image.Height) (hn : n ≤ image.Width) :
    getSizeByFixedWidth image n ≤ image.Height := by
  rw [getSizeByFixedWidth_eq_ediv image n hW]
  apply Int.lt_add_one_iff.mp
  apply Int.ediv_lt_of_lt_mul (by omega)
  have := mul_le_mul_of_nonneg_right hn hH
  nlinarith

/-- Scaling a height not above the source height gives a width not above the
source width. -/
theorem getSizeByFixedHeight_le (image : Image) (n : ℤ)
    (hW : 0 ≤ image.Width) (hH : 1 ≤ image.Height) (hn : n ≤ image.Height) :
    getSizeByFixedHeight image n ≤ image.Width := by
  rw [getSizeByFixedHeight_eq_ediv image n hH]
  apply Int.lt_add_one_iff.mp
  apply Int.ediv_lt_of_lt_mul (by omega)
  have := mul_le_mul_of_nonneg_right hn hW
  nlinarith

/-- On a square source `getSizeByAuto` returns the smaller requested axis twice. -/
theorem getSizeByAuto_square (image : Image) (w h : ℤ)
    (hS : 1 ≤ image.Width) (hsq : image.Height = image.Width) :
    getSizeByAuto image w h = (min w h, min w h) := by
  have hSq : (image.Width : ℚ) ≠ 0 := by
    have : (0 : ℚ) < (image.Width : ℚ) := by exact_mod_cast hS
    exact ne_of_gt this
  have fw : getSizeByFixedWidth image w = w := by
    simp only [getSizeByFixedWidth, hsq, div_self hSq, mul_one, floor_int_add_half]
  have fh : getSizeByFixedHeight image h = h := by
    simp only [getSizeByFixedHeight, hsq, div_self hSq, mul_one, floor_int_add_half]
  simp only [getSizeByAuto, isImageLandscape, isImagePortrait, hsq, lt_irrefl, gt_iff_lt,
    decide_False, Bool.false_eq_true, if_false, fw, fh]
  split_ifs with h1 h2
  · rw [min_eq_left (le_of_lt h1)]
  · rw [min_eq_right (le_of_lt h2)]
  · have : w = h := by omega
    rw [this, min_self]

/-- C16, counterexample: a 200x100 source with the request 300x50, enlarge
false, no crop, JPEG.  No disjunct of the fill-deficiency test holds (the
source is wider but not higher than asked, not square, and no axis is 0 or
equal), the mode is "auto" on a landscape source, and the resolver answers
(300, 150): both axes exceed the source. -/
theorem getDimensions_no_upscale_counterexample :
    isImageSmallerThanFormatSize { Width := 200, Height := 100 } { Width := 300, Height := 50 }
      = false ∧
    getDimensions { Width := 200, Height := 100 } { Width := 300, Height := 50 } = (300, 150) ∧
    ¬ ((getDimensions { Width := 200, Height := 100 } { Width := 300, Height := 50 }).1 ≤ 200 ∧
       (getDimensions { Width := 200, Height := 100 } { Width := 300, Height := 50 }).2 ≤ 100) := by
  decide!

/-- With enlarge false, crop false and a non-WEBP format, the resolved pair stays
within the source exactly outside one situation: both requested axes non-zero,
the source not fill-deficient, and the axis auto mode scales by above the
source. -/
theorem getDimensions_le_source_iff (image : Image) (o : Options)
    (hW : 1 ≤ image.Width) (hH : 1 ≤ image.Height)
    (he : o.Enlarge = false) (hc : o.Crop = false) (ht : o.Typ ≠ ImageType.WEBP) :
    ((getDimensions image o).1 ≤ image.Width ∧ (getDimensions image o).2 ≤ image.Height) ↔
      ¬ (o.Width ≠ 0 ∧ o.Height ≠ 0 ∧ isImageSmallerThanFormatSize image o = false ∧
          ((image.Height < image.Width ∧ image.Width < o.Width) ∨
           (image.Width < image.Height ∧ image.Height < o.Height))) := by
  by_cases hs : isImageSmallerThanFormatSize image o = true
  · rw [getDimensions_short_circuit image o (by simp [hs, he]),
      correctDimensions_of_ne_webp _ _ _ _ ht]
    simp [hs]
  · have hs2 : isImageSmallerThanFormatSize image o = false := by simpa using hs
    have hns : (isImageSmallerThanFormatSize image o && !o.Enlarge) = false := by simp [hs2]
    have hdef := hs
    rw [isImageSmallerThanFormatSize_iff] at hdef
    by_cases hw0 : o.Width = 0
    · by_cases hh0 : o.Height = 0
      · -- nothing requested
        rw [getDimensions_auto image o hns hc (Or.inr ⟨hw0, hh0⟩), hw0, hh0]
        have f0 : getSizeByFixedWidth image 0 = 0 := by
          rw [getSizeByFixedWidth_eq_ediv image 0 hW]
          apply Int.ediv_eq_zero_of_lt <;> omega
        have g0 : getSizeByFixedHeight image 0 = 0 := by
          rw [getSizeByFixedHeight_eq_ediv image 0 hH]
          apply Int.ediv_eq_zero_of_lt <;> omega
        have : getSizeByAuto image 0 0 = (0, 0) := by
          simp only [getSizeByAuto, f0, g0]
          split_ifs <;> rfl
        rw [this]
        simp only [ne_eq, not_true_eq_false, false_and, not_false_eq_true, iff_true]
        omega
      · -- portrait mode
        rw [getDimensions_portrait image o hns hc hw0 hh0,
          correctDimensions_of_ne_webp _ _ _ _ ht]
        have hle : o.Height ≤ image.Height := by omega
        have := getSizeByFixedHeight_le image o.Height (by omega) hH hle
        simp only [hw0, ne_eq, not_true_eq_false, false_and, not_false_eq_true, iff_true]
        exact ⟨this, hle⟩
    · by_cases hh0 : o.Height = 0
      · -- landscape mode
        rw [getDimensions_landscape image o hns hc hw0 hh0,
          correctDimensions_of_ne_webp _ _ _ _ ht]
        have hle : o.Width ≤ image.Width := by omega
        have := getSizeByFixedWidth_le image o.Width hW (by omega) hle
        simp only [hh0, ne_eq, not_true_eq_false, false_and, and_false, not_false_eq_true,
          iff_true]
        exact ⟨hle, this⟩
      · -- auto mode with both axes requested
        rw [getDimensions_auto image o hns hc (Or.inl ⟨hw0, hh0⟩)]
        rcases lt_trichotomy image.Height image.Width with hl | hsq | hp
        · have e : getSizeByAuto image o.Width o.Height
              = (o.Width, getSizeByFixedWidth image o.Width) := by
            simp [getSizeByAuto, isImageLandscape, hl]
          rw [e]
          constructor
          · rintro ⟨h1, _⟩
            simp only at h1
            rintro ⟨_, _, _, h4⟩
            omega
          · intro hE
            have hle : o.Width ≤ image.Width := by
              by_contra hcon
              exact hE ⟨hw0, hh0, hs2, Or.inl ⟨hl, by omega⟩⟩
            exact ⟨hle, getSizeByFixedWidth_le image o.Width hW (by omega) hle⟩
        · rw [getSizeByAuto_square image o.Width o.Height hW hsq]
          constructor
          · intro _
            rintro ⟨_, _, _, h4⟩
            omega
          · intro _
            simp only
            constructor
            · have : min o.Width o.Height ≤ o.Width := min_le_left _ _
              omega
            · have : min o.Width o.Height ≤ o.Height := min_le_right _ _
              omega
        · have e : getSizeByAuto image o.Width o.Height
              = (getSizeByFixedHeight image o.Height, o.Height) := by
            have hnl : ¬ image.Height < image.Width := by omega
            simp [getSizeByAuto, isImageLandscape, isImagePortrait, hnl, hp]
          rw [e]
          constructor
          · rintro ⟨_, h2⟩
            simp only at h2
            rintro ⟨_, _, _, h4⟩
            omega
          · intro hE
            have hle : o.Height ≤ image.Height := by
              by_contra hcon
              exact hE ⟨hw0, hh0, hs2, Or.inr ⟨hp, by omega⟩⟩
            exact ⟨getSizeByFixedHeight_le image o.Height (by omega) hH hle, hle⟩

/-- C16, amended: for a source of dimensions `W, H ≥ 1` and options with
enlarge false, crop false and a non-WEBP output format, the pair `(w', h')`
returned by `getDimensions` satisfies `w' ≤ W` and `h' ≤ H` whenever the source
is classified fill-deficient, or a requested axis is 0, or the request does not
exceed the source on the axis auto mode scales by (the width for a
landscape-shaped source, the height for a portrait-shaped one; a square source
has no such axis). -/
theorem getDimensions_no_upscale (image : Image) (o : Options)
    (hW : 1 ≤ image.Width) (hH : 1 ≤ image.Height)
    (he : o.Enlarge = false) (hc : o.Crop = false) (ht : o.Typ ≠ ImageType.WEBP)
    (hreq : isImageSmallerThanFormatSize image o = true ∨ o.Width = 0 ∨ o.Height = 0 ∨
      ((image.Height < image.Width → o.Width ≤ image.Width) ∧
       (image.Width < image.Height → o.Height ≤ image.Height))) :
    (getDimensions image o).1 ≤ image.Width ∧ (getDimensions image o).2 ≤ image.Height := by
  rw [getDimensions_le_source_iff image o hW hH he hc ht]
  rintro ⟨h1, h2, h3, h4⟩
  rcases hreq with h | h | h | ⟨ha, hb⟩
  · rw [h3] at h
    exact absurd h (by decide)
  · exact h1 h
  · exact h2 h
  · rcases h4 with ⟨h5, h6⟩ | ⟨h5, h6⟩
    · have := ha h5
      omega
    · have := hb h5
      omega

/-- C16, amended, at a concrete input: a 200x100 source asked for 100x100
(enlarge false, no crop, JPEG) resolves to 100x50, inside the source. -/
theorem getDimensions_no_upscale_witness :
    getDimensions { Width := 200, Height := 100 } { Width := 100, Height := 100 } = (100, 50) ∧
    ((getDimensions { Width := 200, Height := 100 } { Width := 100, Height := 100 }).1 ≤ 200 ∧
     (getDimensions { Width := 200, Height := 100 } { Width := 100, Height := 100 }).2 ≤ 100) :=
  ⟨by decide!,
   getDimensions_no_upscale { Width := 200, Height := 100 } { Width := 100, Height := 100 }
     (by decide) (by decide) rfl rfl (by decide)
     (Or.inr (Or.inr (Or.inr ⟨fun _ => by decide, fun h => absurd h (by decide)⟩)))⟩

/-! ## C17: centring of a box that fits -/

/-- C17: for an image of dimensions `W, H ≥ 1` at the crop step and a crop box
`(w, h)` computed by `Resize2` with `0 ≤ w ≤ W` and `0 ≤ h ≤ H`, the offsets are
`x = (W-w)/2` and `y = (H-h)/2`, they satisfy `0 ≤ x`, `x + w ≤ W`, `0 ≤ y`,
`y + h ≤ H`, and the box is centred up to one pixel: `(W-w-x) - x` and
`(H-h-y) - y` are 0 or 1. -/
theorem cropBox_centred (image : Image) (o : Options) (b : CropBox)
    (hW : 1 ≤ image.Width) (hH : 1 ≤ image.Height)
    (hb : cropBox image o = some b)
    (hw0 : 0 ≤ b.w) (hwW : b.w ≤ image.Width) (hh0 : 0 ≤ b.h) (hhH : b.h ≤ image.Height) :
    b.x = (image.Width - b.w).tdiv 2 ∧ b.y = (image.Height - b.h).tdiv 2 ∧
    0 ≤ b.x ∧ b.x + b.w ≤ image.Width ∧ 0 ≤ b.y ∧ b.y + b.h ≤ image.Height ∧
    ((image.Width - b.w - b.x) - b.x = 0 ∨ (image.Width - b.w - b.x) - b.x = 1) ∧
    ((image.Height - b.h - b.y) - b.y = 0 ∨ (image.Height - b.h - b.y) - b.y = 1) := by
  have hx : b.x = (image.Width - b.w).tdiv 2 ∧ b.y = (image.Height - b.h).tdiv 2 := by
    simp only [cropBox, Option.map_eq_some'] at hb
    obtain ⟨p, _, rfl⟩ := hb
    exact ⟨rfl, rfl⟩
  have ex : (image.Width - b.w).tdiv 2 = (image.Width - b.w) / 2 :=
    Int.tdiv_eq_ediv (by omega) (by decide)
  have ey : (image.Height - b.h).tdiv 2 = (image.Height - b.h) / 2 :=
    Int.tdiv_eq_ediv (by omega) (by decide)
  refine ⟨hx.1, hx.2, ?_, ?_, ?_, ?_, ?_, ?_⟩ <;> rw [hx.1, ex] at * <;> rw [hx.2, ey] at * <;>
    omega

/-- C17 at a concrete input: a 101x50 image and the box 80x40 are placed at
`x = 10`, `y = 5`, one spare pixel going to the right. -/
theorem cropBox_centred_witness :
    cropBox { Width := 101, Height := 50 } { Width := 80, Height := 40, Crop := true }
      = some { x := 10, y := 5, w := 80, h := 40 } ∧
    ((10 : ℤ) = ((101 : ℤ) - 80).tdiv 2 ∧ (5 : ℤ) = ((50 : ℤ) - 40).tdiv 2 ∧
      (0 : ℤ) ≤ 10 ∧ (10 : ℤ) + 80 ≤ 101 ∧ (0 : ℤ) ≤ 5 ∧ (5 : ℤ) + 40 ≤ 50 ∧
      (((101 : ℤ) - 80 - 10) - 10 = 0 ∨ ((101 : ℤ) - 80 - 10) - 10 = 1) ∧
      (((50 : ℤ) - 40 - 5) - 5 = 0 ∨ ((50 : ℤ) - 40 - 5) - 5 = 1)) :=
  ⟨by decide,
   cropBox_centred { Width := 101, Height := 50 } { Width := 80, Height := 40, Crop := true }
     { x := 10, y := 5, w := 80, h := 40 } (by decide) (by decide) (by decide)
     (by decide) (by decide) (by decide) (by decide)⟩

/-! ## C18: transposition symmetry of the resolver -/

/-- Upper bounds on `getSizeByFixedWidth` in integer arithmetic. -/
theorem getSizeByFixedWidth_le_iff (image : Image) (n k : ℤ) (hW : 1 ≤ image.Width) :
    getSizeByFixedWidth image n ≤ k ↔
      2 * (n * image.Height) + image.Width < (k + 1) * (2 * image.Width) := by
  rw [getSizeByFixedWidth_eq_ediv image n hW, ← Int.lt_add_one_iff,
    Int.ediv_lt_iff_lt_mul (by omega)]

/-- Upper bounds on `getSizeByFixedHeight` in integer arithmetic. -/
theorem getSizeByFixedHeight_le_iff (image : Image) (n k : ℤ) (hH : 1 ≤ image.Height) :
    getSizeByFixedHeight image n ≤ k ↔
      2 * (n * image.Width) + image.Height < (k + 1) * (2 * image.Height) := by
  rw [getSizeByFixedHeight_eq_ediv image n hH, ← Int.lt_add_one_iff,
    Int.ediv_lt_iff_lt_mul (by omega)]

/-- Sizing by a fixed width on the transposed source is sizing by a fixed height. -/
theorem getSizeByFixedWidth_transpose (image : Image) (n : ℤ) :
    getSizeByFixedWidth (transposeImage image) n = getSizeByFixedHeight image n := rfl

/-- Sizing by a fixed height on the transposed source is sizing by a fixed width. -/
theorem getSizeByFixedHeight_transpose (image : Image) (n : ℤ) :
    getSizeByFixedHeight (transposeImage image) n = getSizeByFixedWidth image n := rfl

/-- The fill-deficiency test is invariant under transposition. -/
theorem isImageSmallerThanFormatSize_transpose (image : Image) (o : Options) :
    isImageSmallerThanFormatSize (transposeImage image) (transposeOptions o)
      = isImageSmallerThanFormatSize image o := by
  rw [Bool.eq_iff_iff, isImageSmallerThanFormatSize_iff, isImageSmallerThanFormatSize_iff]
  simp only [transposeImage, transposeOptions]
  constructor <;> intro h <;> omega

/-- `getSizeByAuto` commutes with transposition. -/
theorem getSizeByAuto_transpose (image : Image) (w h : ℤ) :
    getSizeByAuto (transposeImage image) h w
      = ((getSizeByAuto image w h).2, (getSizeByAuto image w h).1) := by
  simp only [getSizeByAuto, isImageLandscape, isImagePortrait, getSizeByFixedWidth_transpose,
    getSizeByFixedHeight_transpose, decide_eq_true_eq, gt_iff_lt]
  simp only [transposeImage]
  rcases lt_trichotomy image.Height image.Width with hl | hsq | hp
  · have : ¬ image.Width < image.Height := by omega
    simp [hl, this]
  · have h1 : ¬ image.Width < image.Height := by omega
    have h2 : ¬ image.Height < image.Width := by omega
    simp only [h1, h2, if_false]
    rcases lt_trichotomy w h with a | a | a
    · have : ¬ h < w := by omega
      simp [a, this]
    · subst a
      simp
    · have : ¬ w < h := by omega
      simp [a, this]
  · have : ¬ image.Height < image.Width := by omega
    simp [hp, this]

/-- `getOptimalCrop` commutes with transposition. -/
theorem getOptimalCrop_transpose (image : Image) (w h : ℤ) :
    getOptimalCrop (transposeImage image) h w
      = ((getOptimalCrop image w h).2, (getOptimalCrop image w h).1) := by
  have hr : (if (image.Width : ℚ) / (w : ℚ) < (image.Height : ℚ) / (h : ℚ)
        then (image.Width : ℚ) / (w : ℚ) else (image.Height : ℚ) / (h : ℚ))
      = (if (image.Height : ℚ) / (h : ℚ) < (image.Width : ℚ) / (w : ℚ)
        then (image.Height : ℚ) / (h : ℚ) else (image.Width : ℚ) / (w : ℚ)) := by
    rcases lt_trichotomy ((image.Height : ℚ) / (h : ℚ)) ((image.Width : ℚ) / (w : ℚ))
      with a | a | a
    · simp [a, not_lt.mpr (le_of_lt a)]
    · simp [a]
    · simp [a, not_lt.mpr (le_of_lt a)]
  simp only [getOptimalCrop, transposeImage, hr]

/-- The WEBP clamp as a decision tree. -/
theorem correctDimensions_webp (image : Image) (a b : ℤ) :
    correctDimensions image a b ImageType.WEBP =
      if 16383 < a then
        (if 16383 < getSizeByFixedWidth image 16383
          then (getSizeByFixedHeight image 16383, 16383)
          else (16383, getSizeByFixedWidth image 16383))
      else (if 16383 < b then (getSizeByFixedHeight image 16383, 16383) else (a, b)) := by
  simp only [correctDimensions, WEBP_MAX_Pixel_Dimensions, ne_eq, not_true_eq_false, if_false,
    gt_iff_lt]
  split_ifs <;> rfl

/-- The two recomputed dimensions at the limit: they are not both above the
limit, and when neither is above it both equal it. -/
theorem getSizeByFixed_at_limit (image : Image)
    (hW : 1 ≤ image.Width) (hH : 1 ≤ image.Height) :
    ¬ (16383 < getSizeByFixedWidth image 16383 ∧ 16383 < getSizeByFixedHeight image 16383) ∧
    (getSizeByFixedWidth image 16383 ≤ 16383 → getSizeByFixedHeight image 16383 ≤ 16383 →
      getSizeByFixedWidth image 16383 = 16383 ∧ getSizeByFixedHeight image 16383 = 16383) := by
  have a1 := getSizeByFixedWidth_le_iff image 16383 16383 hW
  have a2 := getSizeByFixedWidth_le_iff image 16383 16382 hW
  have b1 := getSizeByFixedHeight_le_iff image 16383 16383 hH
  have b2 := getSizeByFixedHeight_le_iff image 16383 16382 hH
  constructor
  · rintro ⟨h1, h2⟩
    have n1 : ¬ getSizeByFixedWidth image 16383 ≤ 16383 := by omega
    have n2 : ¬ getSizeByFixedHeight image 16383 ≤ 16383 := by omega
    rw [a1] at n1
    rw [b1] at n2
    omega
  · intro h1 h2
    have n1 : ¬ getSizeByFixedWidth image 16383 ≤ 16382 := by
      rw [a2]
      rw [b1] at h2
      omega
    have n2 : ¬ getSizeByFixedHeight image 16383 ≤ 16382 := by
      rw [b2]
      rw [a1] at h1
      omega
    omega

/-- The clamp commutes with transposition on every proposed pair for which the
single-axis clamp does not push the other axis above the limit. -/
theorem correctDimensions_transpose (image : Image) (a b : ℤ) (t : ImageType)
    (hW : 1 ≤ image.Width) (hH : 1 ≤ image.Height)
    (c1 : 16383 < a → b ≤ 16383 → getSizeByFixedWidth image 16383 ≤ 16383)
    (c2 : a ≤ 16383 → 16383 < b → getSizeByFixedHeight image 16383 ≤ 16383) :
    correctDimensions (transposeImage image) b a t
      = ((correctDimensions image a b t).2, (correctDimensions image a b t).1) := by
  by_cases ht : t = ImageType.WEBP
  · subst ht
    rw [correctDimensions_webp, correctDimensions_webp, getSizeByFixedWidth_transpose,
      getSizeByFixedHeight_transpose]
    obtain ⟨f1, f2⟩ := getSizeByFixed_at_limit image hW hH
    generalize getSizeByFixedWidth image 16383 = A at *
    generalize getSizeByFixedHeight image 16383 = B at *
    have hcase : (16383 < A ∧ B ≤ 16383) ∨ (A ≤ 16383 ∧ 16383 < B) ∨
        (A = 16383 ∧ B = 16383) := by
      by_cases hA : 16383 < A
      · by_cases hB : 16383 < B
        · exact absurd ⟨hA, hB⟩ f1
        · exact Or.inl ⟨hA, by omega⟩
      · by_cases hB : 16383 < B
        · exact Or.inr (Or.inl ⟨by omega, hB⟩)
        · exact Or.inr (Or.inr (f2 (by omega) (by omega)))
    by_cases ha : 16383 < a <;> by_cases hb : 16383 < b
    · rcases hcase with ⟨hA, hB⟩ | ⟨hA, hB⟩ | ⟨hA, hB⟩
      · simp [ha, hb, hA, not_lt.mpr hB]
      · simp [ha, hb, hB, not_lt.mpr hA]
      · simp [ha, hb, hA, hB]
    · have hA := c1 ha (by omega)
      simp [ha, hb, not_lt.mpr hA]
    · have hB := c2 (by omega) hb
      simp [ha, hb, not_lt.mpr hB]
    · simp [ha, hb]
  · rw [correctDimensions_of_ne_webp _ _ _ _ ht, correctDimensions_of_ne_webp _ _ _ _ ht]

/-- A pair `(n, getSizeByFixedWidth n)` meets the side conditions of
`correctDimensions_transpose`. -/
theorem fixedWidth_pair_side_conditions (image : Image) (n : ℤ)
    (hW : 1 ≤ image.Width) (hH : 1 ≤ image.Height) :
    (16383 < n → getSizeByFixedWidth image n ≤ 16383 →
      getSizeByFixedWidth image 16383 ≤ 16383) ∧
    (n ≤ 16383 → 16383 < getSizeByFixedWidth image n →
      getSizeByFixedHeight image 16383 ≤ 16383) := by
  constructor
  · intro hn hle
    rw [getSizeByFixedWidth_le_iff image _ _ hW] at hle ⊢
    have : 16383 * image.Height ≤ n * image.Height :=
      mul_le_mul_of_nonneg_right (le_of_lt hn) (by omega)
    omega
  · intro hn hgt
    have hgt2 : ¬ getSizeByFixedWidth image n ≤ 16383 := by omega
    rw [getSizeByFixedWidth_le_iff image _ _ hW] at hgt2
    rw [getSizeByFixedHeight_le_iff image _ _ hH]
    have : n * image.Height ≤ 16383 * image.Height :=
      mul_le_mul_of_nonneg_right hn (by omega)
    omega

/-- A pair `(getSizeByFixedHeight n, n)` meets the side conditions of
`correctDimensions_transpose`. -/
theorem fixedHeight_pair_side_conditions (image : Image) (n : ℤ)
    (hW : 1 ≤ image.Width) (hH : 1 ≤ image.Height) :
    (16383 < getSizeByFixedHeight image n → n ≤ 16383 →
      getSizeByFixedWidth image 16383 ≤ 16383) ∧
    (getSizeByFixedHeight image n ≤ 16383 → 16383 < n →
      getSizeByFixedHeight image 16383 ≤ 16383) := by
  have h := fixedWidth_pair_side_conditions (transposeImage image) n hH hW
  simp only [getSizeByFixedWidth_transpose, getSizeByFixedHeight_transpose] at h
  exact ⟨fun h1 h2 => h.2 h2 h1, fun h1 h2 => h.1 h2 h1⟩

/-- The optimal crop in terms of the two sizing helpers. -/
theorem getOptimalCrop_eq (image : Image) (w h : ℤ)
    (hW : 1 ≤ image.Width) (hH : 1 ≤ image.Height) (hw : 1 ≤ w) (hh : 1 ≤ h) :
    getOptimalCrop image w h =
      if (image.Height : ℚ) / (h : ℚ) < (image.Width : ℚ) / (w : ℚ)
      then (getSizeByFixedHeight image h, h) else (w, getSizeByFixedWidth image w) := by
  have hWq : (0 : ℚ) < (image.Width : ℚ) := by exact_mod_cast hW
  have hHq : (0 : ℚ) < (image.Height : ℚ) := by exact_mod_cast hH
  have hwq : (0 : ℚ) < (w : ℚ) := by exact_mod_cast hw
  have hhq : (0 : ℚ) < (h : ℚ) := by exact_mod_cast hh
  have hposh : (0 : ℚ) ≤ (h : ℚ) + 1 / 2 := by linarith
  have hposw : (0 : ℚ) ≤ (w : ℚ) + 1 / 2 := by linarith
  by_cases hr : (image.Height : ℚ) / (h : ℚ) < (image.Width : ℚ) / (w : ℚ)
  · have e1 : (image.Height : ℚ) / ((image.Height : ℚ) / (h : ℚ)) = (h : ℚ) := by
      field_simp
    have e2 : (image.Width : ℚ) / ((image.Height : ℚ) / (h : ℚ))
        = (h : ℚ) * ((image.Width : ℚ) / (image.Height : ℚ)) := by
      field_simp
      ring
    have hpos : (0 : ℚ) ≤ (h : ℚ) * ((image.Width : ℚ) / (image.Height : ℚ)) + 1 / 2 := by
      have : (0 : ℚ) ≤ (h : ℚ) * ((image.Width : ℚ) / (image.Height : ℚ)) := by positivity
      linarith
    simp only [getOptimalCrop, hr, if_true, e1, e2, truncToInt_of_nonneg _ hpos,
      truncToInt_of_nonneg _ hposh, floor_int_add_half, getSizeByFixedHeight]
  · have e1 : (image.Width : ℚ) / ((image.Width : ℚ) / (w : ℚ)) = (w : ℚ) := by
      field_simp
    have e2 : (image.Height : ℚ) / ((image.Width : ℚ) / (w : ℚ))
        = (w : ℚ) * ((image.Height : ℚ) / (image.Width : ℚ)) := by
      field_simp
      ring
    have hpos : (0 : ℚ) ≤ (w : ℚ) * ((image.Height : ℚ) / (image.Width : ℚ)) + 1 / 2 := by
      have : (0 : ℚ) ≤ (w : ℚ) * ((image.Height : ℚ) / (image.Width : ℚ)) := by positivity
      linarith
    simp only [getOptimalCrop, hr, if_false, e1, e2, truncToInt_of_nonneg _ hpos,
      truncToInt_of_nonneg _ hposw, floor_int_add_half, getSizeByFixedWidth]

/-- The pair chosen by `getOptimalCrop` meets the side conditions of
`correctDimensions_transpose`. -/
theorem optimalCrop_pair_side_conditions (image : Image) (w h : ℤ)
    (hW : 1 ≤ image.Width) (hH : 1 ≤ image.Height) (hw : 1 ≤ w) (hh : 1 ≤ h) :
    (16383 < (getOptimalCrop image w h).1 → (getOptimalCrop image w h).2 ≤ 16383 →
      getSizeByFixedWidth image 16383 ≤ 16383) ∧
    ((getOptimalCrop image w h).1 ≤ 16383 → 16383 < (getOptimalCrop image w h).2 →
      getSizeByFixedHeight image 16383 ≤ 16383) := by
  rw [getOptimalCrop_eq image w h hW hH hw hh]
  split_ifs
  · exact fixedHeight_pair_side_conditions image h hW hH
  · exact fixedWidth_pair_side_conditions image w hW hH

/-- C18: for a source of dimensions `W, H ≥ 1` and options with requested
width and height `≥ 0` (both `≥ 1` when crop is true), if `getDimensions` on the
source `W x H` with request `(w, h)` returns `(a, b)`, then `getDimensions` on
the transposed source `H x W` with the transposed request `(h, w)` and the same
crop, enlarge and format returns `(b, a)`. -/
theorem getDimensions_transpose (image : Image) (o : Options)
    (hW : 1 ≤ image.Width) (hH : 1 ≤ image.Height)
    (hw : 0 ≤ o.Width) (hh : 0 ≤ o.Height)
    (hcrop : o.Crop = true → 1 ≤ o.Width ∧ 1 ≤ o.Height) :
    getDimensions (transposeImage image) (transposeOptions o)
      = ((getDimensions image o).2, (getDimensions image o).1) := by
  have hsT := isImageSmallerThanFormatSize_transpose image o
  have hTW : (transposeImage image).Width = image.Height := rfl
  have hTH : (transposeImage image).Height = image.Width := rfl
  have hOW : (transposeOptions o).Width = o.Height := rfl
  have hOH : (transposeOptions o).Height = o.Width := rfl
  have hOC : (transposeOptions o).Crop = o.Crop := rfl
  have hOE : (transposeOptions o).Enlarge = o.Enlarge := rfl
  have hOT : (transposeOptions o).Typ = o.Typ := rfl
  by_cases hs : (isImageSmallerThanFormatSize image o && !o.Enlarge) = true
  · -- short-circuit on both sides
    have hs' : (isImageSmallerThanFormatSize (transposeImage image) (transposeOptions o)
        && !(transposeOptions o).Enlarge) = true := by rw [hsT, hOE]; exact hs
    rw [getDimensions_short_circuit _ _ hs', getDimensions_short_circuit _ _ hs, hTW, hTH, hOT]
    apply correctDimensions_transpose image _ _ _ hW hH
    · intro h1 h2
      rw [getSizeByFixedWidth_le_iff image _ _ hW]
      omega
    · intro h1 h2
      rw [getSizeByFixedHeight_le_iff image _ _ hH]
      omega
  · have hns : (isImageSmallerThanFormatSize image o && !o.Enlarge) = false := by
      simpa using hs
    have hns' : (isImageSmallerThanFormatSize (transposeImage image) (transposeOptions o)
        && !(transposeOptions o).Enlarge) = false := by rw [hsT, hOE]; exact hns
    by_cases hc : o.Crop = true
    · obtain ⟨hw1, hh1⟩ := hcrop hc
      rw [getDimensions_crop _ _ hns' (by rw [hOC]; exact hc), getDimensions_crop _ _ hns hc,
        hOW, hOH, hOT, getOptimalCrop_transpose]
      obtain ⟨c1, c2⟩ := optimalCrop_pair_side_conditions image o.Width o.Height hW hH hw1 hh1
      exact correctDimensions_transpose image _ _ _ hW hH c1 c2
    · have hc2 : o.Crop = false := by simpa using hc
      have hc2' : (transposeOptions o).Crop = false := by rw [hOC]; exact hc2
      by_cases hw0 : o.Width = 0
      · by_cases hh0 : o.Height = 0
        · rw [getDimensions_auto _ _ hns' hc2'
              (Or.inr ⟨by rw [hOW]; exact hh0, by rw [hOH]; exact hw0⟩),
            getDimensions_auto _ _ hns hc2 (Or.inr ⟨hw0, hh0⟩), hOW, hOH,
            getSizeByAuto_transpose]
        · -- portrait mode, landscape mode on the transposed side
          rw [getDimensions_landscape _ _ hns' hc2' (by rw [hOW]; exact hh0)
              (by rw [hOH]; exact hw0),
            getDimensions_portrait _ _ hns hc2 hw0 hh0, hOW, hOT,
            getSizeByFixedWidth_transpose]
          obtain ⟨c1, c2⟩ := fixedHeight_pair_side_conditions image o.Height hW hH
          exact correctDimensions_transpose image _ _ _ hW hH c1 c2
      · by_cases hh0 : o.Height = 0
        · -- landscape mode, portrait mode on the transposed side
          rw [getDimensions_portrait _ _ hns' hc2' (by rw [hOW]; exact hh0)
              (by rw [hOH]; exact hw0),
            getDimensions_landscape _ _ hns hc2 hw0 hh0, hOH, hOT,
            getSizeByFixedHeight_transpose]
          obtain ⟨c1, c2⟩ := fixedWidth_pair_side_conditions image o.Width hW hH
          exact correctDimensions_transpose image _ _ _ hW hH c1 c2
        · rw [getDimensions_auto _ _ hns' hc2'
              (Or.inl ⟨by rw [hOW]; exact hh0, by rw [hOH]; exact hw0⟩),
            getDimensions_auto _ _ hns hc2 (Or.inl ⟨hw0, hh0⟩), hOW, hOH,
            getSizeByAuto_transpose]

/-- C18 at a concrete input: a 20000x30000 source asked for 18000x27000 in crop
mode as WEBP resolves to (10922, 16383), and the transposed source with the
transposed request to (16383, 10922). -/
theorem getDimensions_transpose_witness :
    getDimensions { Width := 20000, Height := 30000 }
        { Width := 18000, Height := 27000, Crop := true, Enlarge := true, Typ := ImageType.WEBP }
      = (10922, 16383) ∧
    getDimensions
        (transposeImage { Width := 20000, Height := 30000 })
        (transposeOptions
          { Width := 18000, Height := 27000, Crop := true, Enlarge := true,
            Typ := ImageType.WEBP })
      = ((getDimensions { Width := 20000, Height := 30000 }
            { Width := 18000, Height := 27000, Crop := true, Enlarge := true,
              Typ := ImageType.WEBP }).2,
         (getDimensions { Width := 20000, Height := 30000 }
            { Width := 18000, Height := 27000, Crop := true, Enlarge := true,
              Typ := ImageType.WEBP }).1) :=
  ⟨by decide!,
   getDimensions_transpose { Width := 20000, Height := 30000 }
     { Width := 18000, Height := 27000, Crop := true, Enlarge := true, Typ := ImageType.WEBP }
     (by decide) (by decide) (by decide) (by decide) (fun _ => ⟨by decide, by decide⟩)⟩

/-! ## C2, C3: the clamp on the pairs the resolver passes -/

/-- Under WEBP the returned height is within the limit, and so is the returned
width unless the height clamp alone fires on a source whose recomputed width
exceeds the limit. -/
theorem correctDimensions_webp_within (image : Image) (a b : ℤ)
    (hW : 1 ≤ image.Width) (hH : 1 ≤ image.Height)
    (c2 : a ≤ 16383 → 16383 < b → getSizeByFixedHeight image 16383 ≤ 16383) :
    (correctDimensions image a b ImageType.WEBP).1 ≤ 16383 ∧
    (correctDimensions image a b ImageType.WEBP).2 ≤ 16383 := by
  rw [correctDimensions_webp]
  obtain ⟨f1, _⟩ := getSizeByFixed_at_limit image hW hH
  by_cases ha : 16383 < a
  · by_cases hA : 16383 < getSizeByFixedWidth image 16383
    · have hB : getSizeByFixedHeight image 16383 ≤ 16383 := by
        by_contra hcon
        exact f1 ⟨hA, by omega⟩
      simp only [ha, hA, if_true]
      exact ⟨hB, le_refl _⟩
    · simp only [ha, hA, if_true, if_false]
      exact ⟨le_refl _, by omega⟩
  · by_cases hb : 16383 < b
    · have hB := c2 (by omega) hb
      simp only [ha, hb, if_true, if_false]
      exact ⟨hB, le_refl _⟩
    · simp only [ha, hb, if_false]
      exact ⟨by omega, by omega⟩

/-- Every pair `getDimensions` hands to `correctDimensions` (the source size,
a width with its scaled height, a height with its scaled width, an optimal
crop) keeps the recomputed width within the limit when the height is clamped. -/
theorem resolver_pair_height_clamp (image : Image) (a b : ℤ)
    (hW : 1 ≤ image.Width) (hH : 1 ≤ image.Height)
    (hpair : (a = image.Width ∧ b = image.Height) ∨
      b = getSizeByFixedWidth image a ∨ a = getSizeByFixedHeight image b ∨
      ∃ w h : ℤ, 1 ≤ w ∧ 1 ≤ h ∧ getOptimalCrop image w h = (a, b)) :
    a ≤ 16383 → 16383 < b → getSizeByFixedHeight image 16383 ≤ 16383 := by
  rcases hpair with ⟨h1, h2⟩ | h | h | ⟨w, h, hw, hh, he⟩
  · intro ha hb
    rw [getSizeByFixedHeight_le_iff image _ _ hH]
    omega
  · rw [h]
    exact (fixedWidth_pair_side_conditions image a hW hH).2
  · rw [h]
    intro h1 h2
    exact (fixedHeight_pair_side_conditions image b hW hH).2 h1 h2
  · have := (optimalCrop_pair_side_conditions image w h hW hH hw hh).2
    rw [he] at this
    exact this

/-- C2, amended: for a source of dimensions `W, H ≥ 1` and every pair that
`getDimensions` passes to `correctDimensions` (the source size of the
short-circuit, `(w, getSizeByFixedWidth w)` of landscape mode,
`(getSizeByFixedHeight h, h)` of portrait mode, `getOptimalCrop(w, h)` with
`w, h ≥ 1` of crop mode), `correctDimensions` with output format WEBP returns a
width and a height that are both at most 16383. -/
theorem correctDimensions_webp_ceiling (image : Image) (a b : ℤ)
    (hW : 1 ≤ image.Width) (hH : 1 ≤ image.Height)
    (hpair : (a = image.Width ∧ b = image.Height) ∨
      b = getSizeByFixedWidth image a ∨ a = getSizeByFixedHeight image b ∨
      ∃ w h : ℤ, 1 ≤ w ∧ 1 ≤ h ∧ getOptimalCrop image w h = (a, b)) :
    (correctDimensions image a b ImageType.WEBP).1 ≤ 16383 ∧
    (correctDimensions image a b ImageType.WEBP).2 ≤ 16383 :=
  correctDimensions_webp_within image a b hW hH (resolver_pair_height_clamp image a b hW hH hpair)

/-- C2, amended, at a concrete input: a 20000x30000 source passed with its own
size is clamped to (10922, 16383). -/
theorem correctDimensions_webp_ceiling_witness :
    correctDimensions { Width := 20000, Height := 30000 } 20000 30000 ImageType.WEBP
      = (10922, 16383) ∧
    ((correctDimensions { Width := 20000, Height := 30000 } 20000 30000 ImageType.WEBP).1
        ≤ 16383 ∧
     (correctDimensions { Width := 20000, Height := 30000 } 20000 30000 ImageType.WEBP).2
        ≤ 16383) :=
  ⟨by decide!,
   correctDimensions_webp_ceiling { Width := 20000, Height := 30000 } 20000 30000
     (by decide) (by decide) (Or.inl ⟨rfl, rfl⟩)⟩

/-- C3, amended: for a source of dimensions `W, H ≥ 1`, every output format and
every pair that `getDimensions` passes to `correctDimensions` (the source size,
`(w, getSizeByFixedWidth w)`, `(getSizeByFixedHeight h, h)`, `getOptimalCrop(w, h)`
with `w, h ≥ 1`), clamping the clamped pair again changes nothing. -/
theorem correctDimensions_idempotent_on_resolver_pairs (image : Image) (a b : ℤ)
    (t : ImageType) (hW : 1 ≤ image.Width) (hH : 1 ≤ image.Height)
    (hpair : (a = image.Width ∧ b = image.Height) ∨
      b = getSizeByFixedWidth image a ∨ a = getSizeByFixedHeight image b ∨
      ∃ w h : ℤ, 1 ≤ w ∧ 1 ≤ h ∧ getOptimalCrop image w h = (a, b)) :
    correctDimensions image (correctDimensions image a b t).1 (correctDimensions image a b t).2 t
      = correctDimensions image a b t := by
  by_cases ht : t = ImageType.WEBP
  · subst ht
    obtain ⟨h1, h2⟩ := correctDimensions_webp_within image a b hW hH
      (resolver_pair_height_clamp image a b hW hH hpair)
    exact correctDimensions_of_le image _ _ _ h1 h2
  · rw [correctDimensions_of_ne_webp _ _ _ _ ht]

/-- C3, amended, at a concrete input: on a 20000x30000 source the pair
(20000, 30000) clamps to (10922, 16383), which clamps to itself. -/
theorem correctDimensions_idempotent_on_resolver_pairs_witness :
    correctDimensions { Width := 20000, Height := 30000 } 10922 16383 ImageType.WEBP
      = (10922, 16383) ∧
    correctDimensions { Width := 20000, Height := 30000 }
        (correctDimensions { Width := 20000, Height := 30000 } 20000 30000 ImageType.WEBP).1
        (correctDimensions { Width := 20000, Height := 30000 } 20000 30000 ImageType.WEBP).2
        ImageType.WEBP
      = correctDimensions { Width := 20000, Height := 30000 } 20000 30000 ImageType.WEBP :=
  ⟨by decide!,
   correctDimensions_idempotent_on_resolver_pairs { Width := 20000, Height := 30000 }
     20000 30000 ImageType.WEBP (by decide) (by decide) (Or.inl ⟨rfl, rfl⟩)⟩

/-! ## C19: the abort of the crop-box computation -/

/-- C19: for an image of dimensions `W, H ≥ 1` at the crop step and options
with crop true, the crop-box computation of `Resize2` aborts with an integer
division by zero if and only if `isImageSmallerThanFormatSize(image, o)` holds
and the requested width is 0; in every other case it yields a rectangle. -/
theorem cropBox_aborts_iff (image : Image) (o : Options)
    (hW : 1 ≤ image.Width) (hH : 1 ≤ image.Height) (hc : o.Crop = true) :
    (cropBox image o = none ↔
      (isImageSmallerThanFormatSize image o = true ∧ o.Width = 0)) ∧
    (¬ (isImageSmallerThanFormatSize image o = true ∧ o.Width = 0) →
      ∃ b : CropBox, cropBox image o = some b) := by
  have main : cropBox image o = none ↔
      (isImageSmallerThanFormatSize image o = true ∧ o.Width = 0) := by
    by_cases hs : isImageSmallerThanFormatSize image o = true
    · by_cases hw : o.Width = 0
      · simp [cropBox, hs, hw]
      · simp [cropBox, hs, hw]
    · simp [cropBox, hs]
  refine ⟨main, fun hn => ?_⟩
  cases hcb : cropBox image o with
  | none => exact absurd (main.mp hcb) hn
  | some b => exact ⟨b, rfl⟩

/-- C19 at the example: a 100x100 image with requested width 0 and height 200
is fill-deficient, and the computation aborts. -/
theorem cropBox_aborts_iff_witness :
    cropBox { Width := 100, Height := 100 } { Width := 0, Height := 200, Crop := true } = none :=
  (cropBox_aborts_iff { Width := 100, Height := 100 } { Width := 0, Height := 200, Crop := true }
    (by decide) (by decide) rfl).1.mpr ⟨by decide, rfl⟩

/-! ## C20: the square clause of the fill-deficiency test -/

/-- C20: deleting `isSquareAndSmaller` from `isImageSmallerThanFormatSize`
changes the predicate: for the source 100x100 with requested width 200 and
height 50 the square clause holds while the three other disjuncts are false.
The full test is the reduced one or the square clause, and every input on which
the two tests differ is a square source with exactly one requested axis larger
than the source side and the other requested axis non-zero and smaller than
it. -/
theorem isSquareAndSmaller_not_redundant :
    (isSquareAndSmaller { Width := 100, Height := 100 } { Width := 200, Height := 50 } = true ∧
     isImageSmallerWithoutSquareClause { Width := 100, Height := 100 }
       { Width := 200, Height := 50 } = false ∧
     isImageSmallerThanFormatSize { Width := 100, Height := 100 }
       { Width := 200, Height := 50 } = true) ∧
    ¬ (∀ (image : Image) (c : Options),
        isImageSmallerWithoutSquareClause image c = isImageSmallerThanFormatSize image c) ∧
    (∀ (image : Image) (c : Options),
        isImageSmallerThanFormatSize image c
          = (isImageSmallerWithoutSquareClause image c || isSquareAndSmaller image c)) ∧
    (∀ (image : Image) (c : Options),
        isImageSmallerThanFormatSize image c ≠ isImageSmallerWithoutSquareClause image c →
        image.Width = image.Height ∧
        ((image.Width < c.Width ∧ c.Height ≠ 0 ∧ c.Height < image.Height) ∨
         (image.Height < c.Height ∧ c.Width ≠ 0 ∧ c.Width < image.Width))) := by
  refine ⟨by decide, ?_, ?_, ?_⟩
  · intro h
    exact absurd (h { Width := 100, Height := 100 } { Width := 200, Height := 50 }) (by decide)
  · intro image c
    simp only [isImageSmallerThanFormatSize, isImageSmallerWithoutSquareClause,
      isSquareAndSmaller]
    cases decide (image.Width < c.Width) && decide (image.Height < c.Height) <;>
      cases (isImageSquare image &&
        (decide (image.Width < c.Width) || decide (image.Height < c.Height))) <;>
      cases ((c.Width == 0 && decide (image.Height < c.Height)) ||
        (image.Height == c.Height && decide (image.Width < c.Width))) <;>
      cases ((c.Height == 0 && decide (image.Width < c.Width)) ||
        (image.Width == c.Width && decide (image.Height < c.Height))) <;> rfl
  · intro image c hne
    have h1 : isImageSmallerThanFormatSize image c = true ∧
        isImageSmallerWithoutSquareClause image c = false := by
      have himp : isImageSmallerWithoutSquareClause image c = true →
          isImageSmallerThanFormatSize image c = true := by
        simp only [isImageSmallerThanFormatSize, isImageSmallerWithoutSquareClause,
          Bool.or_eq_true]
        tauto
      cases hA : isImageSmallerThanFormatSize image c <;>
        cases hB : isImageSmallerWithoutSquareClause image c <;> simp_all
    obtain ⟨hfull, hred⟩ := h1
    rw [isImageSmallerThanFormatSize_iff] at hfull
    have hred2 : ¬ ((image.Width < c.Width ∧ image.Height < c.Height) ∨
        ((c.Width = 0 ∧ image.Height < c.Height) ∨
          (image.Height = c.Height ∧ image.Width < c.Width)) ∨
        ((c.Height = 0 ∧ image.Width < c.Width) ∨
          (image.Width = c.Width ∧ image.Height < c.Height))) := by
      intro hcon
      have : isImageSmallerWithoutSquareClause image c = true := by
        simp only [isImageSmallerWithoutSquareClause, Bool.or_eq_true, Bool.and_eq_true,
          decide_eq_true_eq, beq_iff_eq]
        tauto
      rw [this] at hred
      exact absurd hred (by decide)
    omega

/-- C20 at the example: on the source 100x100 with request 200x50 the two tests
differ, and the source is square with the width above and the height below its
side. -/
theorem isSquareAndSmaller_not_redundant_witness :
    (100 : ℤ) = 100 ∧
    (((100 : ℤ) < 200 ∧ (50 : ℤ) ≠ 0 ∧ (50 : ℤ) < 100) ∨
     ((100 : ℤ) < 50 ∧ (200 : ℤ) ≠ 0 ∧ (200 : ℤ) < 100)) :=
  isSquareAndSmaller_not_redundant.2.2.2 { Width := 100, Height := 100 }
    { Width := 200, Height := 50 } (by decide)

/-! ## Facts on the binary64 rounding -/

theorem natLog2Aux_spec : ∀ (fuel n : ℕ), n ≤ fuel → n ≠ 0 →
    2 ^ natLog2Aux fuel n ≤ n ∧ n < 2 ^ (natLog2Aux fuel n + 1) := by
  intro fuel
  induction fuel with
  | zero =>
    intro n h1 h2
    omega
  | succ k ih =>
    intro n h1 h2
    unfold natLog2Aux
    by_cases h : n < 2
    · simp only [h, if_true]
      constructor <;> omega
    · simp only [h, if_false]
      have hk : n / 2 ≤ k := by omega
      have h0 : n / 2 ≠ 0 := by omega
      obtain ⟨a, b⟩ := ih (n / 2) hk h0
      constructor
      · rw [pow_succ]
        omega
      · rw [pow_succ]
        omega

/-- The leading-bit position brackets `n`: `2^k ≤ n < 2^(k+1)`. -/
theorem natLog2_spec (n : ℕ) (hn : n ≠ 0) :
    2 ^ natLog2 n ≤ n ∧ n < 2 ^ (natLog2 n + 1) :=
  natLog2Aux_spec n n le_rfl hn

/-- Rounding to the nearest integer moves a value by at most one half. -/
theorem roundTiesEven_error (q : ℚ) :
    (roundTiesEven q : ℚ) - q ≤ 1 / 2 ∧ q - (roundTiesEven q : ℚ) ≤ 1 / 2 := by
  have h1 := Int.floor_le q
  have h2 := Int.lt_floor_add_one q
  unfold roundTiesEven
  simp only
  split_ifs with a b c
  · constructor <;> linarith
  · push_cast
    constructor <;> linarith
  · constructor <;> linarith
  · push_cast
    constructor <;> linarith

/-- An integer rounds to itself. -/
theorem roundTiesEven_intCast (z : ℤ) : roundTiesEven (z : ℚ) = z := by
  simp [roundTiesEven]

/-- The power of two at the binary exponent is not above the value. -/
theorem f64Exponent_le (x : ℚ) (hx : 0 < x) : (2 : ℚ) ^ f64Exponent x ≤ x := by
  unfold f64Exponent
  simp only
  split_ifs with h
  · exact h
  · have hnum : 0 < x.num := Rat.num_pos.mpr hx
    have hn0 : x.num.natAbs ≠ 0 := by omega
    obtain ⟨a, _⟩ := natLog2_spec x.num.natAbs hn0
    obtain ⟨_, b⟩ := natLog2_spec x.den x.den_nz
    have hx' : x = (x.num.natAbs : ℚ) / (x.den : ℚ) := by
      have : ((x.num.natAbs : ℤ) : ℚ) = (x.num : ℚ) := by
        rw [Int.natAbs_of_nonneg (le_of_lt hnum)]
      rw [← Int.cast_natCast, this]
      exact (Rat.num_div_den x).symm
    have aq : ((2 : ℚ) ^ natLog2 x.num.natAbs) ≤ (x.num.natAbs : ℚ) := by exact_mod_cast a
    have bq : (x.den : ℚ) < (2 : ℚ) ^ (natLog2 x.den + 1) := by exact_mod_cast b
    have hden : (0 : ℚ) < (x.den : ℚ) := by exact_mod_cast x.den_pos
    have e : (2 : ℚ) ^ ((natLog2 x.num.natAbs : ℤ) - (natLog2 x.den : ℤ) - 1)
        = (2 : ℚ) ^ natLog2 x.num.natAbs / (2 : ℚ) ^ (natLog2 x.den + 1) := by
      rw [sub_sub, zpow_sub₀ (by norm_num : (2 : ℚ) ≠ 0)]
      norm_cast
    rw [e]
    conv_rhs => rw [hx']
    rw [div_le_div_iff₀ (by positivity) hden]
    have : (2 : ℚ) ^ natLog2 x.num.natAbs * (x.den : ℚ)
        ≤ (x.num.natAbs : ℚ) * (2 : ℚ) ^ (natLog2 x.den + 1) := by
      have h3 : (2 : ℚ) ^ natLog2 x.num.natAbs * (x.den : ℚ)
          ≤ (x.num.natAbs : ℚ) * (x.den : ℚ) :=
        mul_le_mul_of_nonneg_right aq (le_of_lt hden)
      have h4 : (x.num.natAbs : ℚ) * (x.den : ℚ)
          ≤ (x.num.natAbs : ℚ) * (2 : ℚ) ^ (natLog2 x.den + 1) :=
        mul_le_mul_of_nonneg_left (le_of_lt bq) (by positivity)
      exact le_trans h3 h4
    exact this


/-- The rounding of a positive value has relative error at most `2^-53`. -/
theorem roundPosF64_error (x : ℚ) (hx : 0 < x) :
    roundPosF64 x - x ≤ x / 2 ^ 53 ∧ x - roundPosF64 x ≤ x / 2 ^ 53 := by
  have he := f64Exponent_le x hx
  have hulp : (0 : ℚ) < (2 : ℚ) ^ (f64Exponent x - 52) := by positivity
  have hu2 : (2 : ℚ) ^ (f64Exponent x - 52) = (2 : ℚ) ^ f64Exponent x / 2 ^ 52 := by
    rw [zpow_sub₀ (by norm_num : (2 : ℚ) ≠ 0)]
    norm_cast
  obtain ⟨a, b⟩ := roundTiesEven_error (x / (2 : ℚ) ^ (f64Exponent x - 52))
  unfold roundPosF64
  simp only
  generalize (2 : ℚ) ^ (f64Exponent x - 52) = ulp at *
  generalize ((roundTiesEven (x / ulp) : ℤ) : ℚ) = m at *
  have hx' : x / ulp * ulp = x := by field_simp
  have a' := mul_le_mul_of_nonneg_right a (le_of_lt hulp)
  have b' := mul_le_mul_of_nonneg_right b (le_of_lt hulp)
  rw [sub_mul, hx'] at a' b'
  have hle : 1 / 2 * ulp ≤ x / 2 ^ 53 := by
    rw [hu2]
    have : (2 : ℚ) ^ f64Exponent x / 2 ^ 52 * (1 / 2) ≤ x / 2 ^ 52 * (1 / 2) := by
      apply mul_le_mul_of_nonneg_right _ (by norm_num)
      exact div_le_div_of_nonneg_right he (by positivity)
    have e2 : x / 2 ^ 52 * (1 / 2) = x / 2 ^ 53 := by ring
    linarith
  constructor <;> linarith

/-- Relative error of the rounding on a non-negative value. -/
theorem roundF64_bounds (x : ℚ) (hx : 0 ≤ x) :
    x * (1 - 1 / 2 ^ 53) ≤ roundF64 x ∧ roundF64 x ≤ x * (1 + 1 / 2 ^ 53) := by
  rcases eq_or_lt_of_le hx with h | h
  · subst h
    simp [roundF64]
  · obtain ⟨a, b⟩ := roundPosF64_error x h
    have : roundF64 x = roundPosF64 x := by
      simp [roundF64, ne_of_gt h, h]
    rw [this]
    constructor <;> linarith

/-- Integers below `2^53` are binary64 numbers. -/
theorem roundF64_intCast (k : ℤ) (h0 : 0 ≤ k) (hk : k < 2 ^ 53) : roundF64 (k : ℚ) = k := by
  rcases eq_or_lt_of_le h0 with h | h
  · subst h
    simp [roundF64]
  · have hkq : (0 : ℚ) < (k : ℚ) := by exact_mod_cast h
    have : roundF64 (k : ℚ) = roundPosF64 (k : ℚ) := by
      simp [roundF64, ne_of_gt hkq, hkq]
    rw [this]
    have he := f64Exponent_le (k : ℚ) hkq
    have he52 : f64Exponent (k : ℚ) ≤ 52 := by
      by_contra hcon
      have h53 : (53 : ℤ) ≤ f64Exponent (k : ℚ) := by omega
      have : (2 : ℚ) ^ (53 : ℤ) ≤ (2 : ℚ) ^ f64Exponent (k : ℚ) :=
        zpow_le_zpow_right₀ (by norm_num) h53
      have hk' : (k : ℚ) < (2 : ℚ) ^ (53 : ℤ) := by exact_mod_cast hk
      linarith
    unfold roundPosF64
    simp only
    obtain ⟨m, hm⟩ : ∃ m : ℕ, f64Exponent (k : ℚ) - 52 = -(m : ℤ) :=
      ⟨(52 - f64Exponent (k : ℚ)).toNat, by omega⟩
    rw [hm, zpow_neg, zpow_natCast]
    have hpos : (0 : ℚ) < (2 : ℚ) ^ m := by positivity
    have e1 : (k : ℚ) / ((2 : ℚ) ^ m)⁻¹ = ((k * 2 ^ m : ℤ) : ℚ) := by
      push_cast
      field_simp
    rw [e1, roundTiesEven_intCast]
    push_cast
    field_simp

/-- Accumulated rounding error of `floor(fl(fl(n * fl(H/W)) + 0.5))` before the
floor is taken. -/
theorem sizing_error (n H W : ℚ) (hn : 0 ≤ n) (hH : 0 ≤ H) (hW : 0 < W) :
    n * (H / W) + 1 / 2 - (4 * (n * (H / W)) + 1 / 2) / 2 ^ 53
        ≤ roundF64 (roundF64 (n * roundF64 (H / W)) + 1 / 2) ∧
    roundF64 (roundF64 (n * roundF64 (H / W)) + 1 / 2)
        ≤ n * (H / W) + 1 / 2 + (4 * (n * (H / W)) + 1 / 2) / 2 ^ 53 := by
  have hr0 : 0 ≤ H / W := div_nonneg hH (le_of_lt hW)
  obtain ⟨r1, r2⟩ := roundF64_bounds (H / W) hr0
  have hr'0 : 0 ≤ roundF64 (H / W) := by
    have : (0 : ℚ) ≤ H / W * (1 - 1 / 2 ^ 53) := mul_nonneg hr0 (by norm_num)
    linarith
  have hq0 : 0 ≤ n * roundF64 (H / W) := mul_nonneg hn hr'0
  have q1 := mul_le_mul_of_nonneg_left r1 hn
  have q2 := mul_le_mul_of_nonneg_left r2 hn
  obtain ⟨p1, p2⟩ := roundF64_bounds (n * roundF64 (H / W)) hq0
  have hp0 : 0 ≤ roundF64 (n * roundF64 (H / W)) := by
    have : (0 : ℚ) ≤ n * roundF64 (H / W) * (1 - 1 / 2 ^ 53) := mul_nonneg hq0 (by norm_num)
    linarith
  obtain ⟨s1, s2⟩ := roundF64_bounds (roundF64 (n * roundF64 (H / W)) + 1 / 2) (by linarith)
  have hx0 : 0 ≤ n * (H / W) := mul_nonneg hn hr0
  generalize roundF64 (roundF64 (n * roundF64 (H / W)) + 1 / 2) = s at *
  generalize roundF64 (n * roundF64 (H / W)) = p at *
  generalize hq : n * roundF64 (H / W) = q at *
  rw [← mul_assoc] at q1 q2
  generalize n * (H / W) = x at *
  norm_num at *
  constructor <;> linarith

/-- The binary64 result of the width sizing against the exact half-up value
`k = (2*n*H + W) div (2*W)`: it is `k` off ties and `k` or `k - 1` at a tie
(`n*H/W` exactly half-way between two integers). -/
theorem getSizeByFixedWidthF64_spec (image : Image) (n : ℤ)
    (hW : 1 ≤ image.Width) (hH : 1 ≤ image.Height) (hn : 0 ≤ n)
    (bW : image.Width < 2 ^ 24) (bH : image.Height < 2 ^ 24) (bn : n < 2 ^ 24) :
    ((2 * n * image.Height + image.Width) % (2 * image.Width) ≠ 0 →
      getSizeByFixedWidthF64 image n
        = (2 * n * image.Height + image.Width) / (2 * image.Width)) ∧
    ((2 * n * image.Height + image.Width) % (2 * image.Width) = 0 →
      getSizeByFixedWidthF64 image n
          = (2 * n * image.Height + image.Width) / (2 * image.Width) ∨
      getSizeByFixedWidthF64 image n
          = (2 * n * image.Height + image.Width) / (2 * image.Width) - 1) := by
  have eW : roundF64 (image.Width : ℚ) = image.Width :=
    roundF64_intCast _ (by omega) (by omega)
  have eH : roundF64 (image.Height : ℚ) = image.Height :=
    roundF64_intCast _ (by omega) (by omega)
  have en : roundF64 (n : ℚ) = n := roundF64_intCast _ hn (by omega)
  have hWq : (0 : ℚ) < (image.Width : ℚ) := by exact_mod_cast (show (0 : ℤ) < image.Width by omega)
  have hHq : (0 : ℚ) ≤ (image.Height : ℚ) := by exact_mod_cast (show (0 : ℤ) ≤ image.Height by omega)
  have hnq : (0 : ℚ) ≤ (n : ℚ) := by exact_mod_cast hn
  obtain ⟨lo, hi⟩ := sizing_error (n : ℚ) (image.Height : ℚ) (image.Width : ℚ) hnq hHq hWq
  have hdef : getSizeByFixedWidthF64 image n
      = ⌊roundF64 (roundF64 ((n : ℚ) * roundF64 ((image.Height : ℚ) / (image.Width : ℚ)))
          + 1 / 2)⌋ := by
    simp only [getSizeByFixedWidthF64, eW, eH, en]
  rw [hdef]
  generalize roundF64 (roundF64 ((n : ℚ) * roundF64 ((image.Height : ℚ) / (image.Width : ℚ)))
      + 1 / 2) = s at *
  have hxW : (n : ℚ) * ((image.Height : ℚ) / (image.Width : ℚ)) * (image.Width : ℚ)
      = (n : ℚ) * (image.Height : ℚ) := by
    field_simp
  -- the quotient and remainder of the exact half-up value
  have hdiv := Int.ediv_add_emod (2 * n * image.Height + image.Width) (2 * image.Width)
  have hr0 := Int.emod_nonneg (2 * n * image.Height + image.Width)
    (show 2 * image.Width ≠ 0 by omega)
  have hr1 := Int.emod_lt_of_pos (2 * n * image.Height + image.Width)
    (show 0 < 2 * image.Width by omega)
  generalize (2 * n * image.Height + image.Width) / (2 * image.Width) = k at *
  generalize (2 * n * image.Height + image.Width) % (2 * image.Width) = ρ at *
  have hdivq : 2 * (image.Width : ℚ) * (k : ℚ) + (ρ : ℚ)
      = 2 * (n : ℚ) * (image.Height : ℚ) + (image.Width : ℚ) := by exact_mod_cast hdiv
  -- the size bound that keeps the error below half a step
  have hnH : (n : ℚ) * (image.Height : ℚ) ≤ 2 ^ 24 * 2 ^ 24 := by
    have h1 : (n : ℚ) ≤ 2 ^ 24 := by exact_mod_cast le_of_lt bn
    have h2 : (image.Height : ℚ) ≤ 2 ^ 24 := by exact_mod_cast le_of_lt bH
    exact mul_le_mul h1 h2 hHq (by norm_num)
  have hWb : (image.Width : ℚ) ≤ 2 ^ 24 := by exact_mod_cast le_of_lt bW
  have lo2 := mul_le_mul_of_nonneg_right lo (show (0 : ℚ) ≤ 2 * (image.Width : ℚ) by linarith)
  have hi2 := mul_le_mul_of_nonneg_right hi (show (0 : ℚ) ≤ 2 * (image.Width : ℚ) by linarith)
  generalize (n : ℚ) * ((image.Height : ℚ) / (image.Width : ℚ)) = x at *
  have lo3 : 2 * (n : ℚ) * (image.Height : ℚ) + (image.Width : ℚ) - 1
      < s * (2 * (image.Width : ℚ)) := by
    have e : (x + 1 / 2 - (4 * x + 1 / 2) / 2 ^ 53) * (2 * (image.Width : ℚ))
        = 2 * (x * (image.Width : ℚ)) + (image.Width : ℚ)
          - (8 * (x * (image.Width : ℚ)) + (image.Width : ℚ)) / 2 ^ 53 := by ring
    rw [e, hxW] at lo2
    norm_num at lo2 hnH hWb ⊢
    linarith
  have hi3 : s * (2 * (image.Width : ℚ))
      < 2 * (n : ℚ) * (image.Height : ℚ) + (image.Width : ℚ) + 1 := by
    have e : (x + 1 / 2 + (4 * x + 1 / 2) / 2 ^ 53) * (2 * (image.Width : ℚ))
        = 2 * (x * (image.Width : ℚ)) + (image.Width : ℚ)
          + (8 * (x * (image.Width : ℚ)) + (image.Width : ℚ)) / 2 ^ 53 := by ring
    rw [e, hxW] at hi2
    norm_num at hi2 hnH hWb ⊢
    linarith
  have h2W : (0 : ℚ) < 2 * (image.Width : ℚ) := by linarith
  have hρ0 : (0 : ℚ) ≤ (ρ : ℚ) := by exact_mod_cast hr0
  have hW1 : (1 : ℚ) ≤ (image.Width : ℚ) := by exact_mod_cast hW
  constructor
  · intro hne
    have hρ1 : (1 : ℚ) ≤ (ρ : ℚ) := by exact_mod_cast (show (1 : ℤ) ≤ ρ by omega)
    have hρ2 : (ρ : ℚ) + 1 ≤ 2 * (image.Width : ℚ) := by
      exact_mod_cast (show ρ + 1 ≤ 2 * image.Width by omega)
    rw [Int.floor_eq_iff]
    constructor
    · apply le_of_lt
      apply lt_of_mul_lt_mul_right _ (le_of_lt h2W)
      nlinarith
    · apply lt_of_mul_lt_mul_right _ (le_of_lt h2W)
      nlinarith
  · intro he
    have hρ : (ρ : ℚ) = 0 := by exact_mod_cast he
    have a : k - 1 ≤ ⌊s⌋ := by
      rw [Int.le_floor]
      push_cast
      apply le_of_lt
      apply lt_of_mul_lt_mul_right _ (le_of_lt h2W)
      nlinarith
    have b : ⌊s⌋ < k + 1 := by
      rw [Int.floor_lt]
      push_cast
      apply lt_of_mul_lt_mul_right _ (le_of_lt h2W)
      nlinarith
    omega

/-- The height sizing is the width sizing of the transposed source. -/
theorem getSizeByFixedHeightF64_transpose (image : Image) (n : ℤ) :
    getSizeByFixedHeightF64 image n = getSizeByFixedWidthF64 (transposeImage image) n := rfl

/-! ## C12: round-half-up sizing -/

/-- C12, counterexample: for the source 600x313 and the fixed width 300 the
exact value `300 * 313 / 600 = 156.5` lies half-way; in binary64 the quotient
`313/600` is rounded down, the product is just below 156.5, and the code
returns `floor(156.99999999999997) = 156`, whereas `floor(n*H/W + 1/2) =
(2*n*H + W) div (2*W) = 157`.  The same happens for the fixed height 300 on
the source 313x600. -/
theorem getSizeByFixedF64_tie_counterexample :
    getSizeByFixedWidthF64 { Width := 600, Height := 313 } 300 = 156 ∧
    getSizeByFixedWidth { Width := 600, Height := 313 } 300 = 157 ∧
    ((2 * 300 * 313 + 600) / (2 * 600) : ℤ) = 157 ∧
    getSizeByFixedHeightF64 { Width := 313, Height := 600 } 300 = 156 ∧
    getSizeByFixedHeight { Width := 313, Height := 600 } 300 = 157 := by
  decide!

/-- C12, amended: for a source of dimensions `W, H ≥ 1` and `n ≥ 0`, all three
below `2^24`, `floor(n*H/W + 1/2) = (2*n*H + W) div (2*W)`, and the binary64
result of `getSizeByFixedWidth(source, n)` equals that value whenever `n*H/W`
is not exactly half-way between two integers (`(2*n*H + W) mod (2*W) ≠ 0`);
when it is half-way the result is that value or one less.  Likewise for
`getSizeByFixedHeight(source, n)` with `W` and `H` exchanged. -/
theorem getSizeByFixedF64_round_half_up (image : Image) (n : ℤ)
    (hW : 1 ≤ image.Width) (hH : 1 ≤ image.Height) (hn : 0 ≤ n)
    (bW : image.Width < 2 ^ 24) (bH : image.Height < 2 ^ 24) (bn : n < 2 ^ 24) :
    (⌊((n : ℚ) * (image.Height : ℚ) / (image.Width : ℚ)) + 1 / 2⌋
        = (2 * n * image.Height + image.Width) / (2 * image.Width) ∧
     ((2 * n * image.Height + image.Width) % (2 * image.Width) ≠ 0 →
        getSizeByFixedWidthF64 image n
          = (2 * n * image.Height + image.Width) / (2 * image.Width)) ∧
     ((2 * n * image.Height + image.Width) % (2 * image.Width) = 0 →
        getSizeByFixedWidthF64 image n
            = (2 * n * image.Height + image.Width) / (2 * image.Width) ∨
        getSizeByFixedWidthF64 image n
            = (2 * n * image.Height + image.Width) / (2 * image.Width) - 1)) ∧
    (⌊((n : ℚ) * (image.Width : ℚ) / (image.Height : ℚ)) + 1 / 2⌋
        = (2 * n * image.Width + image.Height) / (2 * image.Height) ∧
     ((2 * n * image.Width + image.Height) % (2 * image.Height) ≠ 0 →
        getSizeByFixedHeightF64 image n
          = (2 * n * image.Width + image.Height) / (2 * image.Height)) ∧
     ((2 * n * image.Width + image.Height) % (2 * image.Height) = 0 →
        getSizeByFixedHeightF64 image n
            = (2 * n * image.Width + image.Height) / (2 * image.Height) ∨
        getSizeByFixedHeightF64 image n
            = (2 * n * image.Width + image.Height) / (2 * image.Height) - 1)) := by
  have e1 : ⌊((n : ℚ) * (image.Height : ℚ) / (image.Width : ℚ)) + 1 / 2⌋
      = (2 * n * image.Height + image.Width) / (2 * image.Width) := by
    have := floor_div_add_half (n * image.Height) image.Width (by omega)
    push_cast at this
    rw [this, mul_assoc]
  have e2 : ⌊((n : ℚ) * (image.Width : ℚ) / (image.Height : ℚ)) + 1 / 2⌋
      = (2 * n * image.Width + image.Height) / (2 * image.Height) := by
    have := floor_div_add_half (n * image.Width) image.Height (by omega)
    push_cast at this
    rw [this, mul_assoc]
  obtain ⟨w1, w2⟩ := getSizeByFixedWidthF64_spec image n hW hH hn bW bH bn
  obtain ⟨h1, h2⟩ := getSizeByFixedWidthF64_spec (transposeImage image) n hH hW hn bH bW bn
  exact ⟨⟨e1, w1, w2⟩, ⟨e2, h1, h2⟩⟩

/-- C12, amended, at the example of the specification: source 101x50 with
fixed width 50 is not half-way (`5101 mod 202 = 51`) and gives height
`5101 div 202 = 25`. -/
theorem getSizeByFixedF64_round_half_up_witness :
    getSizeByFixedWidthF64 { Width := 101, Height := 50 } 50 = (2 * 50 * 50 + 101) / (2 * 101) ∧
    ((2 * 50 * 50 + 101) / (2 * 101) : ℤ) = 25 :=
  ⟨(getSizeByFixedF64_round_half_up { Width := 101, Height := 50 } 50
      (by decide) (by decide) (by decide) (by decide) (by decide) (by decide)).1.2.1
      (by decide), by decide⟩

/-! ## C7: landscape mode -/

/-- The binary64 clamp is the identity outside WEBP. -/
theorem correctDimensionsF64_of_ne_webp (image : Image) (w h : ℤ) (t : ImageType)
    (ht : t ≠ ImageType.WEBP) : correctDimensionsF64 image w h t = (w, h) := by
  simp [correctDimensionsF64, ht]

/-- The binary64 resolver in landscape mode. -/
theorem getDimensionsF64_landscape (image : Image) (c : Options)
    (hs : (isImageSmallerThanFormatSize image c && !c.Enlarge) = false)
    (hc : c.Crop = false) (hw : c.Width ≠ 0) (hh : c.Height = 0) :
    getDimensionsF64 image c =
      correctDimensionsF64 image c.Width (getSizeByFixedWidthF64 image c.Width) c.Typ := by
  have hm : resizeMethod c = "landscape" := by simp [resizeMethod, hc, hw, hh]
  simp [getDimensionsF64, hs, hm]

/-- C7, counterexample: for the source 600x313 and the options width 300,
height 0 (no crop, no enlarge, JPEG) the source is not fill-deficient, the mode
is landscape, and the code returns (300, 156): the product `300 * (313/600)`
is just below 156.5 in binary64, whereas `floor(300*313/600 + 1/2) = 157`. -/
theorem getDimensionsF64_landscape_counterexample :
    getDimensionsF64 { Width := 600, Height := 313 } { Width := 300 } = (300, 156) ∧
    ⌊(((300 : ℤ) : ℚ) * ((313 : ℤ) : ℚ) / ((600 : ℤ) : ℚ)) + 1 / 2⌋ = 157 ∧
    getDimensionsF64 { Width := 600, Height := 313 } { Width := 300 }
      ≠ ((300 : ℤ), ⌊(((300 : ℤ) : ℚ) * ((313 : ℤ) : ℚ) / ((600 : ℤ) : ℚ)) + 1 / 2⌋) := by
  decide!

/-- C7, amended: for a source of dimensions `W, H ≥ 1` and options with crop
false, requested width `w ≥ 1`, requested height 0, and enlarge true or
`W ≥ w` (with `W`, `H`, `w` below `2^24`), `getDimensions` returns
`correctDimensions(source, w, h', format)` with `h' = getSizeByFixedWidth(source,
w)`, which for a non-WEBP format is `(w, h')`; and `h'` is `floor(w*H/W + 1/2)`
whenever `w*H/W` is not exactly half-way between two integers, and that value
or one less when it is. -/
theorem getDimensionsF64_landscape_mode (image : Image) (o : Options)
    (hW : 1 ≤ image.Width) (hH : 1 ≤ image.Height)
    (hc : o.Crop = false) (hw : 1 ≤ o.Width) (hh : o.Height = 0)
    (he : o.Enlarge = true ∨ o.Width ≤ image.Width)
    (bW : image.Width < 2 ^ 24) (bH : image.Height < 2 ^ 24) (bw : o.Width < 2 ^ 24) :
    getDimensionsF64 image o =
      correctDimensionsF64 image o.Width (getSizeByFixedWidthF64 image o.Width) o.Typ ∧
    (o.Typ ≠ ImageType.WEBP →
      getDimensionsF64 image o = (o.Width, getSizeByFixedWidthF64 image o.Width)) ∧
    ((2 * o.Width * image.Height + image.Width) % (2 * image.Width) ≠ 0 →
      getSizeByFixedWidthF64 image o.Width
        = ⌊((o.Width : ℚ) * (image.Height : ℚ) / (image.Width : ℚ)) + 1 / 2⌋) ∧
    ((2 * o.Width * image.Height + image.Width) % (2 * image.Width) = 0 →
      getSizeByFixedWidthF64 image o.Width
          = ⌊((o.Width : ℚ) * (image.Height : ℚ) / (image.Width : ℚ)) + 1 / 2⌋ ∨
      getSizeByFixedWidthF64 image o.Width
          = ⌊((o.Width : ℚ) * (image.Height : ℚ) / (image.Width : ℚ)) + 1 / 2⌋ - 1) := by
  have hns : (isImageSmallerThanFormatSize image o && !o.Enlarge) = false := by
    rcases he with he | he
    · simp [he]
    · have : isImageSmallerThanFormatSize image o = false := by
        rw [← Bool.not_eq_true, isImageSmallerThanFormatSize_iff]
        omega
      simp [this]
  have main := getDimensionsF64_landscape image o hns hc (by omega) hh
  have efl : ⌊((o.Width : ℚ) * (image.Height : ℚ) / (image.Width : ℚ)) + 1 / 2⌋
      = (2 * o.Width * image.Height + image.Width) / (2 * image.Width) := by
    have := floor_div_add_half (o.Width * image.Height) image.Width (by omega)
    push_cast at this
    rw [this, mul_assoc]
  obtain ⟨w1, w2⟩ := getSizeByFixedWidthF64_spec image o.Width hW hH (by omega) bW bH bw
  refine ⟨main, fun hf => ?_, ?_, ?_⟩
  · rw [main]
    exact correctDimensionsF64_of_ne_webp _ _ _ _ hf
  · rw [efl]
    exact w1
  · rw [efl]
    exact w2

/-- C7, amended, at the scenario of the specification: source 800x600 with
requested width 400 (height 0, no crop, no enlarge) is not half-way and
resolves to 400x300. -/
theorem getDimensionsF64_landscape_mode_witness :
    getDimensionsF64 { Width := 800, Height := 600 } { Width := 400 }
      = ((400 : ℤ), getSizeByFixedWidthF64 { Width := 800, Height := 600 } 400) ∧
    getSizeByFixedWidthF64 { Width := 800, Height := 600 } 400
      = ⌊(((400 : ℤ) : ℚ) * ((600 : ℤ) : ℚ) / ((800 : ℤ) : ℚ)) + 1 / 2⌋ ∧
    getDimensionsF64 { Width := 800, Height := 600 } { Width := 400 } = (400, 300) :=
  ⟨(getDimensionsF64_landscape_mode { Width := 800, Height := 600 } { Width := 400 }
      (by decide) (by decide) rfl (by decide) rfl (Or.inr (by decide))
      (by decide) (by decide) (by decide)).2.1 (by decide),
   (getDimensionsF64_landscape_mode { Width := 800, Height := 600 } { Width := 400 }
      (by decide) (by decide) rfl (by decide) rfl (Or.inr (by decide))
      (by decide) (by decide) (by decide)).2.2.1 (by decide),
   by decide!⟩

end Bimg
